import Mathlib

/-!
The encoder orchestration of gpujpeg: a shallow embedding of `libgpujpeg/gpujpeg_encoder.c`.

The three functions of the file are embedded:

* `gpujpeg_encoder_encode`: the per-image pipeline, lines 133-274;
* `gpujpeg_encoder_destroy`: teardown, lines 277-302;
* `gpujpeg_encoder_create`: construction, lines 43-130.

Everything the file calls but does not define (CUDA transfers, the NPP transform kernel, the
preprocessor, both Huffman coders, the bitstream writer routines, coder init and deinit) is a
field of a record of collaborators.  Memory is a total map from addresses to bytes; the writer
cursor `buffer_current` is an address, moved exactly as the C pointer is moved.  The bounds of
the output buffer and of the compressed-data region are not part of the model: an access
outside them is undefined in C.

The C `int`s that count things or measure byte ranges (`comp_count`, `segment_count`,
`restart_interval`, `data_compressed_index`, `data_compressed_size`) are naturals: create
asserts the first kind to be non-negative, a negative count would run no loop iteration (as 0
does), and a negative index or size would make the `memcpy` undefined.  Addresses are
integers, so that `buffer_current -= 2` is a plain subtraction; the returned length is the
pointer difference converted to a C `int` of 32 bits (`to_int`).
-/

namespace GpuJpeg

/-- One `uint8_t` of image or bitstream data.  Bytes are only copied, never computed with. -/
abbrev Byte := Nat

/-- The fields of `struct gpujpeg_parameters` that the encoder reads.  `gpujpeg_encoder_create`
asserts `restart_interval >= 0`, `0 <= quality <= 100`, so they are naturals. -/
structure gpujpeg_parameters where
  quality : Nat
  restart_interval : Nat
  interleaved : Nat

/-- The fields of `struct gpujpeg_image_parameters` (`comp_count` is asserted to be 3 by create). -/
structure gpujpeg_image_parameters where
  width : Nat
  height : Nat
  comp_count : Nat

/-- The fields of `struct gpujpeg_component` that the encoder reads; `segment_count` is the
number of segments of the component, set when the coder is initialised. -/
structure gpujpeg_component where
  data_width : Nat
  data_height : Nat
  segment_count : Nat

/-- The fields of `struct gpujpeg_segment` that the encoder reads: where the compressed bytes of
the segment start in `coder->data_compressed` and how many they are. -/
structure gpujpeg_segment where
  data_compressed_index : Nat
  data_compressed_size : Nat

/-- The host side of `struct gpujpeg_coder` as far as `gpujpeg_encoder_encode` touches it.  The
arrays `component`, `segment` and `data_compressed` are total maps from indices. -/
structure gpujpeg_coder where
  param : gpujpeg_parameters
  param_image : gpujpeg_image_parameters
  component : Nat → gpujpeg_component
  segment_count : Nat
  segment : Nat → gpujpeg_segment
  data_compressed : Nat → Byte

/-- The bitstream writer: `buffer` is the address of the first byte of the output buffer,
`buffer_current` the address of the cursor, `mem` the bytes stored at each address. -/
structure gpujpeg_writer where
  buffer : Int
  buffer_current : Int
  mem : Int → Byte

/-- The session object as `gpujpeg_encoder_encode` sees it (the writer pointer is dereferenced). -/
structure gpujpeg_encoder where
  coder : gpujpeg_coder
  writer : gpujpeg_writer

/-- What `gpujpeg_encoder_encode` does, one entry per executed statement that calls a
collaborator, copies a segment or moves the cursor back.  `retract b0 b1` records the two bytes
that stood right before the cursor when `buffer_current -= 2` ran. -/
inductive Event where
  | cudaMemcpy_raw
  | preprocessor_encode
  | dct_quant (comp : Nat)
  | write_header
  | cudaMemcpy_quantized
  | huffman_cpu_encoder_encode
  | huffman_gpu_encoder_encode
  | cudaMemcpy_compressed
  | cudaMemcpy_segment
  | write_scan_header (comp : Nat)
  | memcpy_segment (segment_index : Nat)
  | retract (b0 b1 : Byte)
  | emit_marker_EOI
  deriving DecidableEq, Repr

/-- The external collaborators of one session, each a function of the raw image (the session
parameters are fixed for the record).  Statuses are the C return values, `0` meaning success.
Writer routines and the sequential coder are given by the bytes they emit at the cursor;
the parallel coder and the two transfers after it are given by the compressed-data region and
the segment array that end up on the host. -/
structure Collaborators where
  cudaMemcpy_raw : List Byte → Int
  preprocessor_encode : List Byte → Int
  nppiDCTQuantFwd8x8LS : List Byte → Nat → Int
  write_header : List Byte → List Byte
  cudaMemcpy_quantized : List Byte → Int
  huffman_cpu_encoder_encode : List Byte → Int × List Byte
  huffman_gpu_encoder_encode : List Byte → Int
  cudaMemcpy_compressed : List Byte → Int
  data_compressed : List Byte → Nat → Byte
  cudaMemcpy_segment : List Byte → Int
  segment : List Byte → Nat → gpujpeg_segment
  write_scan_header : List Byte → Nat → List Byte
  marker_EOI : List Byte

/-- Writing the bytes `bs` at the cursor and advancing the cursor past them: the effect of
`gpujpeg_writer_emit_byte` repeated, and of `memcpy` followed by `buffer_current += size`. -/
def gpujpeg_writer.emit (w : gpujpeg_writer) (bs : List Byte) : gpujpeg_writer :=
  { w with
    mem := fun a =>
      if w.buffer_current ≤ a ∧ a < w.buffer_current + bs.length
      then bs.getD (a - w.buffer_current).toNat 0 else w.mem a
    buffer_current := w.buffer_current + bs.length }

/-- The bytes from the start of the buffer up to the cursor. -/
def gpujpeg_writer.view (w : gpujpeg_writer) : List Byte :=
  (List.range (w.buffer_current - w.buffer).toNat).map (fun (i : Nat) => w.mem (w.buffer + (i : Int)))

/-- The bytes `data_compressed[index .. index + size)` of a segment: the source of the `memcpy`. -/
def segment_bytes (coder : gpujpeg_coder) (segment_index : Nat) : List Byte :=
  (List.range (coder.segment segment_index).data_compressed_size).map
    (fun k => coder.data_compressed ((coder.segment segment_index).data_compressed_index + k))

/-- The writer together with the log of what has run so far. -/
structure Run where
  writer : gpujpeg_writer
  trace : List Event

/-- A step that emits bytes through the writer. -/
def Run.emit (r : Run) (e : Event) (bs : List Byte) : Run :=
  ⟨r.writer.emit bs, r.trace ++ [e]⟩

/-- The statement `encoder->writer->buffer_current -= 2;`. -/
def Run.retract (r : Run) : Run :=
  ⟨{ r.writer with buffer_current := r.writer.buffer_current - 2 },
   r.trace ++ [Event.retract (r.writer.mem (r.writer.buffer_current - 2))
                             (r.writer.mem (r.writer.buffer_current - 1))]⟩

/-- The transform loop of lines 157-184: `n` iterations are left, `comp` is the loop variable.
Returns the log and whether every kernel call returned status 0. -/
def dct_loop (status : Nat → Int) : Nat → Nat → List Event → List Event × Bool
  | 0, _, tr => (tr, true)
  | n + 1, comp, tr =>
    if status comp ≠ 0 then (tr ++ [Event.dct_quant comp], false)
    else dct_loop status n (comp + 1) (tr ++ [Event.dct_quant comp])

/-- The scan-data loop (lines 225-236 and 246-259, whose bodies are the same): `n` iterations are
left and `segment_index` is the index of the next segment to copy. -/
def write_scan_data (coder : gpujpeg_coder) : Nat → Nat → Run → Run × Nat
  | 0, segment_index, r => (r, segment_index)
  | n + 1, segment_index, r =>
    write_scan_data coder n (segment_index + 1)
      (r.emit (Event.memcpy_segment segment_index) (segment_bytes coder segment_index))

/-- The per-component loop of lines 242-262: `n` iterations are left, `comp` is the loop
variable and `segment_index` the running index into the shared segment array. -/
def write_component_scans (env : Collaborators) (image : List Byte) (coder : gpujpeg_coder) :
    Nat → Nat → Nat → Run → Run × Nat
  | 0, _, segment_index, r => (r, segment_index)
  | n + 1, comp, segment_index, r =>
    let r1 := r.emit (Event.write_scan_header comp) (env.write_scan_header image comp)
    let r2 := write_scan_data coder (coder.component comp).segment_count segment_index r1
    write_component_scans env image coder n (comp + 1) r2.2 r2.1.retract

/-- Scan assembly, lines 221-263. -/
def write_scans (env : Collaborators) (image : List Byte) (coder : gpujpeg_coder) (r : Run) : Run :=
  if coder.param.interleaved = 1 then
    let r1 := r.emit (Event.write_scan_header 0) (env.write_scan_header image 0)
    let r2 := write_scan_data coder coder.segment_count 0 r1
    r2.1.retract
  else
    (write_component_scans env image coder coder.param_image.comp_count 0 0 r).1

/-- What a call of `gpujpeg_encoder_encode` leaves behind: the returned status, the session, the
caller's two out-variables `*image_compressed` (an address) and `*image_compressed_size`, and the
log of the call. -/
structure encode_result where
  status : Int
  encoder : gpujpeg_encoder
  image_compressed : Int
  image_compressed_size : Int
  trace : List Event

/-- The value a C `int` of 32 bits takes when a pointer difference is stored in it: the
difference reduced modulo 2^32 to the range from -2^31 to 2^31 - 1. -/
def to_int (x : Int) : Int := (x + 2147483648) % 4294967296 - 2147483648

/-- The tail of `gpujpeg_encoder_encode`, lines 265-273.  Line 271 stores the pointer difference
`buffer_current - buffer` in the caller's `int`. -/
def encode_finish (env : Collaborators) (coder : gpujpeg_coder) (r : Run) : encode_result :=
  let r1 := r.emit Event.emit_marker_EOI env.marker_EOI
  { status := 0
    encoder := ⟨coder, r1.writer⟩
    image_compressed := r1.writer.buffer
    image_compressed_size := to_int (r1.writer.buffer_current - r1.writer.buffer)
    trace := r1.trace }

/-- The function `gpujpeg_encoder_encode` (lines 133-274).  `image_compressed` and
`image_compressed_size` are the values the caller's out-variables hold before the call. -/
def gpujpeg_encoder_encode (env : Collaborators) (encoder : gpujpeg_encoder) (image : List Byte)
    (image_compressed : Int) (image_compressed_size : Int) : encode_result :=
  let coder := encoder.coder
  if env.cudaMemcpy_raw image ≠ 0 then
    ⟨-1, encoder, image_compressed, image_compressed_size, [Event.cudaMemcpy_raw]⟩
  else if env.preprocessor_encode image ≠ 0 then
    ⟨-1, encoder, image_compressed, image_compressed_size,
      [Event.cudaMemcpy_raw, Event.preprocessor_encode]⟩
  else
    let d := dct_loop (env.nppiDCTQuantFwd8x8LS image) coder.param_image.comp_count 0
      [Event.cudaMemcpy_raw, Event.preprocessor_encode]
    if d.2 = false then
      ⟨-1, encoder, image_compressed, image_compressed_size, d.1⟩
    else
      let r0 : Run := ⟨{ encoder.writer with buffer_current := encoder.writer.buffer }, d.1⟩
      let r1 := r0.emit Event.write_header (env.write_header image)
      if coder.param.restart_interval = 0 then
        let r2 : Run := ⟨r1.writer, r1.trace ++ [Event.cudaMemcpy_quantized]⟩
        let r3 := r2.emit Event.huffman_cpu_encoder_encode (env.huffman_cpu_encoder_encode image).2
        if (env.huffman_cpu_encoder_encode image).1 ≠ 0 then
          ⟨-1, ⟨coder, r3.writer⟩, image_compressed, image_compressed_size, r3.trace⟩
        else
          encode_finish env coder r3
      else
        let r2 : Run := ⟨r1.writer, r1.trace ++ [Event.huffman_gpu_encoder_encode]⟩
        if env.huffman_gpu_encoder_encode image ≠ 0 then
          ⟨-1, ⟨coder, r2.writer⟩, image_compressed, image_compressed_size, r2.trace⟩
        else
          let r3 : Run := ⟨r2.writer, r2.trace ++ [Event.cudaMemcpy_compressed]⟩
          if env.cudaMemcpy_compressed image ≠ 0 then
            ⟨-1, ⟨coder, r3.writer⟩, image_compressed, image_compressed_size, r3.trace⟩
          else
            let coder1 := { coder with data_compressed := env.data_compressed image }
            let r4 : Run := ⟨r3.writer, r3.trace ++ [Event.cudaMemcpy_segment]⟩
            if env.cudaMemcpy_segment image ≠ 0 then
              ⟨-1, ⟨coder1, r4.writer⟩, image_compressed, image_compressed_size, r4.trace⟩
            else
              let coder2 := { coder1 with segment := env.segment image }
              encode_finish env coder2 (write_scans env image coder2 r4)

/-- The compressed image a call leaves for the caller: the bytes stored from the address
`*image_compressed` up to the writer cursor.  Their number is `*image_compressed_size` as long
as it fits the `int`. -/
def encode_result.output (res : encode_result) : List Byte :=
  (List.range (res.encoder.writer.buffer_current - res.image_compressed).toNat).map
    (fun (i : Nat) => res.encoder.writer.mem (res.image_compressed + (i : Int)))


/-- Dropping the last `k` elements of a list. -/
def strip_last (k : Nat) (l : List Byte) : List Byte := l.take (l.length - k)

/-- The compressed bytes of the `n` segments starting at index `first`, concatenated in
segment-array order. -/
def scan_bytes (coder : gpujpeg_coder) (first n : Nat) : List Byte :=
  ((List.range' first n).map (segment_bytes coder)).flatten

/-- The sum of `segment_count` over the components before `comp`: the index of the first segment
of component `comp` in the shared segment array. -/
def first_segment (coder : gpujpeg_coder) (comp : Nat) : Nat :=
  ((List.range comp).map (fun k => (coder.component k).segment_count)).sum

/-- The sum of `data_compressed_size` over the segments with index below `n`. -/
def segment_size_sum (coder : gpujpeg_coder) (n : Nat) : Nat :=
  ((List.range n).map (fun i => (coder.segment i).data_compressed_size)).sum

/-- The sum of the lengths of the scan headers of the components below `n`. -/
def scan_header_size_sum (env : Collaborators) (image : List Byte) (n : Nat) : Nat :=
  ((List.range n).map (fun c => (env.write_scan_header image c).length)).sum

/-- One iteration of the per-component loop, lines 243-261, on the pair of the run and the
running segment index. -/
def scan_step (env : Collaborators) (image : List Byte) (coder : gpujpeg_coder) (comp : Nat)
    (s : Run × Nat) : Run × Nat :=
  let r1 := s.1.emit (Event.write_scan_header comp) (env.write_scan_header image comp)
  let r2 := write_scan_data coder (coder.component comp).segment_count s.2 r1
  (r2.1.retract, r2.2)

/-- The component arguments of the scan headers written during a call, in order. -/
def scan_headers_written (tr : List Event) : List Nat :=
  tr.filterMap (fun e => match e with
    | Event.write_scan_header c => some c
    | _ => none)

/-- The indices of the segments copied to the writer during a call, in order. -/
def segments_appended (tr : List Event) : List Nat :=
  tr.filterMap (fun e => match e with
    | Event.memcpy_segment i => some i
    | _ => none)

/-- The pairs of bytes dropped by the retractions of a call, in order. -/
def retracted_bytes (tr : List Event) : List (Byte × Byte) :=
  tr.filterMap (fun e => match e with
    | Event.retract b0 b1 => some (b0, b1)
    | _ => none)

/-- The coder once the parallel coder has run and both transfers have reached the host. -/
def coder_after_gpu (env : Collaborators) (coder : gpujpeg_coder) (image : List Byte) :
    gpujpeg_coder :=
  { coder with data_compressed := env.data_compressed image, segment := env.segment image }

/-- Every stage of the branch `restart_interval > 0` returns success. -/
def parallel_stages_succeed (env : Collaborators) (encoder : gpujpeg_encoder)
    (image : List Byte) : Prop :=
  env.cudaMemcpy_raw image = 0 ∧ env.preprocessor_encode image = 0 ∧
  (∀ comp, comp < encoder.coder.param_image.comp_count →
    env.nppiDCTQuantFwd8x8LS image comp = 0) ∧
  env.huffman_gpu_encoder_encode image = 0 ∧ env.cudaMemcpy_compressed image = 0 ∧
  env.cudaMemcpy_segment image = 0

/-- The log of a call up to and including the transfer of the segment array, when every stage
of the branch `restart_interval > 0` succeeds. -/
def parallel_head_trace (comp_count : Nat) : List Event :=
  [Event.cudaMemcpy_raw, Event.preprocessor_encode]
    ++ (List.range' 0 comp_count).map Event.dct_quant
    ++ [Event.write_header, Event.huffman_gpu_encoder_encode, Event.cudaMemcpy_compressed,
        Event.cudaMemcpy_segment]

/-- The last two bytes of a list (0 where the list is too short to have them). -/
def last_two (l : List Byte) : Byte × Byte :=
  (l.getD (l.length - 2) 0, l.getD (l.length - 1) 0)

/-- The compressed bytes of the segments of component `comp`: those at the indices from
`first_segment coder comp` on, `segment_count` of them, concatenated in array order. -/
def component_scan_bytes (coder : gpujpeg_coder) (comp : Nat) : List Byte :=
  scan_bytes coder (first_segment coder comp) (coder.component comp).segment_count

/-- The log of the scan of component `comp` in non-interleaved mode when the retraction drops
the last two bytes of the component's own segment bytes. -/
def component_scan_events (coder : gpujpeg_coder) (comp : Nat) : List Event :=
  Event.write_scan_header comp
    :: (List.range' (first_segment coder comp) (coder.component comp).segment_count).map
        Event.memcpy_segment
    ++ [Event.retract (last_two (component_scan_bytes coder comp)).1
          (last_two (component_scan_bytes coder comp)).2]

/-- A session environment in which every stage succeeds.  The header is the start-of-image
marker, the scan header of component `c` is `FF DA c 3F 00`, the end-of-image marker `FF D9`.
The compressed-data region holds three segments of 4, 3 and 3 bytes, each ending in a restart
marker `FF D0`, `FF D1`, `FF D2`. -/
def sample_env : Collaborators where
  cudaMemcpy_raw := fun _ => 0
  preprocessor_encode := fun _ => 0
  nppiDCTQuantFwd8x8LS := fun _ _ => 0
  write_header := fun _ => [255, 216]
  cudaMemcpy_quantized := fun _ => 0
  huffman_cpu_encoder_encode := fun _ => (0, [1, 2, 3])
  huffman_gpu_encoder_encode := fun _ => 0
  cudaMemcpy_compressed := fun _ => 0
  data_compressed := fun _ i => [10, 11, 255, 208, 12, 255, 209, 13, 255, 210].getD i 0
  cudaMemcpy_segment := fun _ => 0
  segment := fun _ i => [⟨0, 4⟩, ⟨4, 3⟩, ⟨7, 3⟩].getD i ⟨0, 0⟩
  write_scan_header := fun _ c => [255, 218, c, 63, 0]
  marker_EOI := [255, 217]

/-- A session of three components with the given restart interval and interleaving flag, where
component `k` has `counts[k]` segments.  The writer buffer starts at address 1000, holds stale
bytes 7 everywhere and has its cursor left at 1009. -/
def sample_encoder (restart_interval interleaved : Nat) (counts : List Nat) : gpujpeg_encoder :=
  { coder :=
      { param := ⟨75, restart_interval, interleaved⟩
        param_image := ⟨16, 16, 3⟩
        component := fun k => ⟨16, 16, counts.getD k 0⟩
        segment_count := counts.sum
        segment := fun _ => ⟨0, 0⟩
        data_compressed := fun _ => 0 }
    writer := ⟨1000, 1009, fun _ => 7⟩ }

/-- Every checked stage of the branch `restart_interval == 0` returns success. -/
def sequential_stages_succeed (env : Collaborators) (encoder : gpujpeg_encoder)
    (image : List Byte) : Prop :=
  env.cudaMemcpy_raw image = 0 ∧ env.preprocessor_encode image = 0 ∧
  (∀ comp, comp < encoder.coder.param_image.comp_count →
    env.nppiDCTQuantFwd8x8LS image comp = 0) ∧
  (env.huffman_cpu_encoder_encode image).1 = 0

/-- The sample environment with a failing device-to-host transfer of the quantized
coefficients (`cudaMemcpy` returns `cudaErrorInvalidValue`). -/
def sample_env_quantized_transfer_fails : Collaborators :=
  { sample_env with cudaMemcpy_quantized := fun _ => 11 }

/-- The stages of a call in the words of the specification: the upload, the preprocessor, the
transform of each component, and by branch the transfer of the quantized coefficients and the
sequential coder, or the parallel coder and the transfers of the compressed data and of the
segment array.  True when one of them returns a failure status. -/
def some_stage_fails (env : Collaborators) (encoder : gpujpeg_encoder) (image : List Byte) : Prop :=
  env.cudaMemcpy_raw image ≠ 0 ∨ env.preprocessor_encode image ≠ 0 ∨
  (∃ comp, comp < encoder.coder.param_image.comp_count ∧
    env.nppiDCTQuantFwd8x8LS image comp ≠ 0) ∨
  (encoder.coder.param.restart_interval = 0 ∧
    (env.cudaMemcpy_quantized image ≠ 0 ∨ (env.huffman_cpu_encoder_encode image).1 ≠ 0)) ∨
  (0 < encoder.coder.param.restart_interval ∧
    (env.huffman_gpu_encoder_encode image ≠ 0 ∨ env.cudaMemcpy_compressed image ≠ 0 ∨
      env.cudaMemcpy_segment image ≠ 0))

/-- The stages whose status `gpujpeg_encoder_encode` tests: as `some_stage_fails` without the
transfer of the quantized coefficients. -/
def some_checked_stage_fails (env : Collaborators) (encoder : gpujpeg_encoder)
    (image : List Byte) : Prop :=
  env.cudaMemcpy_raw image ≠ 0 ∨ env.preprocessor_encode image ≠ 0 ∨
  (∃ comp, comp < encoder.coder.param_image.comp_count ∧
    env.nppiDCTQuantFwd8x8LS image comp ≠ 0) ∨
  (encoder.coder.param.restart_interval = 0 ∧ (env.huffman_cpu_encoder_encode image).1 ≠ 0) ∨
  (0 < encoder.coder.param.restart_interval ∧
    (env.huffman_gpu_encoder_encode image ≠ 0 ∨ env.cudaMemcpy_compressed image ≠ 0 ∨
      env.cudaMemcpy_segment image ≠ 0))

/-- The sample environment with a transform kernel that fails on component 1. -/
def sample_env_transform_fails : Collaborators :=
  { sample_env with nppiDCTQuantFwd8x8LS := fun _ comp => if comp = 1 then -5 else 0 }

/-- The statements that the branch `restart_interval == 0` can execute. -/
def Event.on_sequential_path : Event → Bool
  | Event.cudaMemcpy_raw => true
  | Event.preprocessor_encode => true
  | Event.dct_quant _ => true
  | Event.write_header => true
  | Event.cudaMemcpy_quantized => true
  | Event.huffman_cpu_encoder_encode => true
  | Event.emit_marker_EOI => true
  | _ => false

/-- The statements that the branch `restart_interval != 0` can execute. -/
def Event.on_parallel_path : Event → Bool
  | Event.cudaMemcpy_quantized => false
  | Event.huffman_cpu_encoder_encode => false
  | _ => true

/-- The log of a successful call on the branch `restart_interval == 0`. -/
def sequential_trace (comp_count : Nat) : List Event :=
  [Event.cudaMemcpy_raw, Event.preprocessor_encode]
    ++ (List.range' 0 comp_count).map Event.dct_quant
    ++ [Event.write_header, Event.cudaMemcpy_quantized, Event.huffman_cpu_encoder_encode,
        Event.emit_marker_EOI]

/-- What the caller gets from a call: the status and, when it is 0, the returned length and the
bytes of the compressed image. -/
def encode_result.returned (res : encode_result) : Int × Option (Int × List Byte) :=
  (res.status, if res.status = 0 then some (res.image_compressed_size, res.output) else none)

/-- Two writers on the same buffer with the same cursor and the same bytes from the buffer start
up to the cursor. -/
def writers_agree (w1 w2 : gpujpeg_writer) : Prop :=
  w1.buffer = w2.buffer ∧ w1.buffer_current = w2.buffer_current ∧
  ∀ a, w1.buffer ≤ a → a < w1.buffer_current → w1.mem a = w2.mem a

/-- Two states of one session: the parameters, the component geometry, the number of segments
and the address of the writer buffer are those fixed at creation; the writer cursor, the buffer
contents and the host copies of the segment array and of the compressed data may differ. -/
def same_session (e1 e2 : gpujpeg_encoder) : Prop :=
  e1.coder.param = e2.coder.param ∧ e1.coder.param_image = e2.coder.param_image ∧
  e1.coder.component = e2.coder.component ∧ e1.coder.segment_count = e2.coder.segment_count ∧
  e1.writer.buffer = e2.writer.buffer

/-- The session after a sequence of earlier calls of `gpujpeg_encoder_encode`, one per raw
image of the list. -/
def session_after (env : Collaborators) (encoder : gpujpeg_encoder) (earlier : List (List Byte)) :
    gpujpeg_encoder :=
  earlier.foldl (fun enc img => (gpujpeg_encoder_encode env enc img 0 0).encoder) encoder

/-- Modelled from the spec: the 2-byte restart marker that bounds a segment.  The marker codes
are declared outside `gpujpeg_encoder.c`; a restart marker is the byte `FF` followed by one of
`D0 .. D7` (RST0 .. RST7). -/
def is_restart_marker (b0 b1 : Nat) : Bool :=
  b0 == 255 && (decide (208 ≤ b1) && decide (b1 ≤ 215))

/-- The number of positions of a byte sequence at which a restart marker starts. -/
def count_restart_markers : List Byte → Nat
  | b0 :: b1 :: rest =>
    (if is_restart_marker b0 b1 = true then 1 else 0) + count_restart_markers (b1 :: rest)
  | _ => 0

/-- The assumption of the specification on the parallel coder, for the compressed bytes of one
segment: they end with a 2-byte restart marker and hold no other restart marker. -/
def segment_ends_with_marker (bs : List Byte) : Prop :=
  2 ≤ bs.length ∧ is_restart_marker (last_two bs).1 (last_two bs).2 = true ∧
  count_restart_markers bs = 1

/-- The scans that scan assembly (lines 221-263) writes: for each one the component argument of
its scan header, the index of its first segment and the number of its segments. -/
def scan_layout (coder : gpujpeg_coder) : List (Nat × Nat × Nat) :=
  if coder.param.interleaved = 1 then [(0, 0, coder.segment_count)]
  else (List.range coder.param_image.comp_count).map
    (fun c => (c, first_segment coder c, (coder.component c).segment_count))

instance (bs : List Byte) : Decidable (segment_ends_with_marker bs) := by
  unfold segment_ends_with_marker
  infer_instance

/-- Modelled from the spec: the number of component types, luminance and chrominance
(the constant is declared outside `gpujpeg_encoder.c`). -/
def GPUJPEG_COMPONENT_TYPE_COUNT : Nat := 2

/-- Modelled from the spec: the number of Huffman coding classes, DC and AC
(the constant is declared outside `gpujpeg_encoder.c`). -/
def GPUJPEG_HUFFMAN_TYPE_COUNT : Nat := 2

/-- The things a session owns: the session object from `malloc`, the writer, the working
buffers of the coder, one device allocation per quantization table and one per Huffman table. -/
inductive Resource where
  | encoder
  | writer
  | coder_buffers
  | table_quantization (comp_type : Nat)
  | table_huffman (comp_type huff_type : Nat)
  deriving DecidableEq, Repr

/-- The pointer fields of `struct gpujpeg_encoder` that create sets and destroy tests:
`true` stands for a non-NULL pointer. -/
structure gpujpeg_encoder_handles where
  writer : Bool
  table_quantization_d_table : Nat → Bool
  d_table_huffman : Nat → Nat → Bool

/-- The outcome of every step that `gpujpeg_encoder_create` and `gpujpeg_encoder_destroy`
delegate: whether each allocation succeeds, the status of each initialisation, whether
`gpujpeg_coder_init` leaves working buffers allocated, the status of `gpujpeg_coder_deinit` and
whether it released the working buffers. -/
structure LifecycleCollaborators where
  malloc_encoder : Bool
  writer_create : Bool
  coder_init : Int
  coder_init_allocates : Bool
  cudaMalloc_quantization : Nat → Bool
  cudaMalloc_huffman : Nat → Nat → Bool
  table_quantization_encoder_init : Nat → Int
  table_huffman_encoder_init : Nat → Nat → Int
  huffman_gpu_encoder_init : Int
  coder_deinit : Int
  coder_deinit_releases : Bool

/-- The function `gpujpeg_encoder_destroy` (lines 277-302) on the handles of a session and the
list of live resources: returns the status and the resources still live. -/
def gpujpeg_encoder_destroy (env : LifecycleCollaborators) (encoder : gpujpeg_encoder_handles)
    (live : List Resource) : Int × List Resource :=
  let live0 := if env.coder_deinit_releases then live.erase Resource.coder_buffers else live
  if env.coder_deinit ≠ 0 then (-1, live0)
  else
    let live1 := (List.range GPUJPEG_COMPONENT_TYPE_COUNT).foldl
      (fun l comp_type =>
        if encoder.table_quantization_d_table comp_type
        then l.erase (Resource.table_quantization comp_type) else l) live0
    let live2 := (List.range GPUJPEG_COMPONENT_TYPE_COUNT).foldl
      (fun l comp_type => (List.range GPUJPEG_HUFFMAN_TYPE_COUNT).foldl
        (fun l huff_type =>
          if encoder.d_table_huffman comp_type huff_type
          then l.erase (Resource.table_huffman comp_type huff_type) else l) l) live1
    let live3 := if encoder.writer then live2.erase Resource.writer else live2
    (0, live3.erase Resource.encoder)

/-- The state of `gpujpeg_encoder_create` between its steps: the handles stored so far, the
cumulative flag `result` and the live resources. -/
structure create_state where
  handles : gpujpeg_encoder_handles
  result : Bool
  live : List Resource

/-- Lines 66-69 of `gpujpeg_encoder_create`: create the writer. -/
def create_writer (env : LifecycleCollaborators) (s : create_state) : create_state :=
  if env.writer_create
  then { s with handles := { s.handles with writer := true }, live := s.live ++ [Resource.writer] }
  else { s with result := false }

/-- Lines 71-73 of `gpujpeg_encoder_create`: initialise the coder, which allocates its working
buffers. -/
def create_coder_init (env : LifecycleCollaborators) (s : create_state) : create_state :=
  { s with
    live := if env.coder_init_allocates then s.live ++ [Resource.coder_buffers] else s.live
    result := if env.coder_init ≠ 0 then false else s.result }

/-- The body of the loop of lines 76-79: one `cudaMalloc` of a quantization table. -/
def create_alloc_quantization_step (env : LifecycleCollaborators) (s : create_state)
    (comp_type : Nat) : create_state :=
  if env.cudaMalloc_quantization comp_type
  then { s with
         handles := { s.handles with
           table_quantization_d_table := fun c =>
             if c = comp_type then true else s.handles.table_quantization_d_table c }
         live := s.live ++ [Resource.table_quantization comp_type] }
  else { s with result := false }

/-- The body of the inner loop of lines 82-85: one `cudaMalloc` of a Huffman table. -/
def create_alloc_huffman_step (env : LifecycleCollaborators) (comp_type : Nat)
    (s : create_state) (huff_type : Nat) : create_state :=
  if env.cudaMalloc_huffman comp_type huff_type
  then { s with
         handles := { s.handles with
           d_table_huffman := fun c h =>
             if c = comp_type ∧ h = huff_type then true else s.handles.d_table_huffman c h }
         live := s.live ++ [Resource.table_huffman comp_type huff_type] }
  else { s with result := false }

/-- The allocations of `gpujpeg_encoder_create`, lines 60-87, after `malloc` succeeded: the
`memset` leaves every pointer field NULL and `result` is 1; then the writer, the coder buffers
and the device tables are allocated, a failure clearing `result` and leaving the field NULL.
`gpujpeg_cuda_check_error` only prints a diagnostic. -/
def create_allocate (env : LifecycleCollaborators) : create_state :=
  let s0 : create_state := ⟨⟨false, fun _ => false, fun _ _ => false⟩, true, [Resource.encoder]⟩
  let s1 := create_writer env s0
  let s2 := create_coder_init env s1
  let s3 := (List.range GPUJPEG_COMPONENT_TYPE_COUNT).foldl
    (create_alloc_quantization_step env) s2
  (List.range GPUJPEG_COMPONENT_TYPE_COUNT).foldl
    (fun s comp_type => (List.range GPUJPEG_HUFFMAN_TYPE_COUNT).foldl
      (create_alloc_huffman_step env comp_type) s) s3

/-- The initialisations of `gpujpeg_encoder_create`, lines 89-122: the quantization tables, the
Huffman tables and the parallel Huffman coder; a non-zero status clears `result`. -/
def create_initialise (env : LifecycleCollaborators) (s4 : create_state) : create_state :=
  -- init quantization tables for encoder
  let s5 := (List.range GPUJPEG_COMPONENT_TYPE_COUNT).foldl
    (fun (s : create_state) comp_type =>
      if env.table_quantization_encoder_init comp_type ≠ 0
      then { s with result := false } else s) s4
  -- init huffman tables for encoder
  let s6 := (List.range GPUJPEG_COMPONENT_TYPE_COUNT).foldl
    (fun (s : create_state) comp_type => (List.range GPUJPEG_HUFFMAN_TYPE_COUNT).foldl
      (fun (s : create_state) huff_type =>
        if env.table_huffman_encoder_init comp_type huff_type ≠ 0
        then { s with result := false } else s) s) s5
  -- init huffman encoder
  if env.huffman_gpu_encoder_init ≠ 0 then { s6 with result := false } else s6

/-- The function `gpujpeg_encoder_create` (lines 43-130): returns the handles of the session, or
`none` for NULL, and the resources left live. -/
def gpujpeg_encoder_create (env : LifecycleCollaborators) :
    Option gpujpeg_encoder_handles × List Resource :=
  if env.malloc_encoder = false then (none, [])
  else
    let s := create_initialise env (create_allocate env)
    if s.result = false then
      (none, (gpujpeg_encoder_destroy env s.handles s.live).2)
    else
      (some s.handles, s.live)

/-- Every step of creation and teardown succeeds. -/
def lifecycle_ok : LifecycleCollaborators where
  malloc_encoder := true
  writer_create := true
  coder_init := 0
  coder_init_allocates := true
  cudaMalloc_quantization := fun _ => true
  cudaMalloc_huffman := fun _ _ => true
  table_quantization_encoder_init := fun _ => 0
  table_huffman_encoder_init := fun _ _ => 0
  huffman_gpu_encoder_init := 0
  coder_deinit := 0
  coder_deinit_releases := true

/-- Teardown of the coder reports an error (and releases nothing); all else succeeds. -/
def lifecycle_deinit_fails : LifecycleCollaborators :=
  { lifecycle_ok with coder_deinit := -1, coder_deinit_releases := false }

/-- The initialisation of the parallel Huffman coder, the last step of creation, fails and the
teardown of the coder reports an error; all else succeeds. -/
def lifecycle_init_and_deinit_fail : LifecycleCollaborators :=
  { lifecycle_ok with
    huffman_gpu_encoder_init := -1
    coder_deinit := -1
    coder_deinit_releases := false }

/-- The handles of a session in which every pointer field is set. -/
def all_handles : gpujpeg_encoder_handles := ⟨true, fun _ => true, fun _ _ => true⟩

/-- The resources of a session in which every allocation succeeded. -/
def all_resources : List Resource :=
  [Resource.encoder, Resource.writer, Resource.coder_buffers,
   Resource.table_quantization 0, Resource.table_quantization 1,
   Resource.table_huffman 0 0, Resource.table_huffman 0 1,
   Resource.table_huffman 1 0, Resource.table_huffman 1 1]

/-- The collaborators whose allocations succeed as the eight flags say (writer, coder buffers,
quantization tables 0 and 1, Huffman tables (0,0), (0,1), (1,0), (1,1)) and whose other steps
succeed. -/
def lifecycle_of_flags (w cb q0 q1 h00 h01 h10 h11 : Bool) : LifecycleCollaborators :=
  { lifecycle_ok with
    writer_create := w
    coder_init_allocates := cb
    cudaMalloc_quantization := fun c => if c = 0 then q0 else q1
    cudaMalloc_huffman := fun c h =>
      if c = 0 then (if h = 0 then h00 else h01) else (if h = 0 then h10 else h11) }

/-- Two states of creation with the same handles and the same live resources. -/
def same_allocation (s t : create_state) : Prop :=
  s.handles = t.handles ∧ s.live = t.live

/-- The length the output of a successful call has on the branch `restart_interval > 0`, computed
from the session alone: the length of the header, plus the lengths of the scan headers, plus
`data_compressed_size` of every segment the scans take from the segment array, minus 2 for
every scan, plus the length of the end-of-image marker.  With `interleaved == 1` there is one
scan, with the scan header of argument 0 and all `segment_count` segments; otherwise there is
one scan per component, and together they take the segments below the sum of the
`segment_count`s of the components. -/
def expected_length (env : Collaborators) (encoder : gpujpeg_encoder) (image : List Byte) : Int :=
  if encoder.coder.param.interleaved = 1 then
    ((env.write_header image).length : Int)
      + ((env.write_scan_header image 0).length : Int)
      + (segment_size_sum (coder_after_gpu env encoder.coder image)
          encoder.coder.segment_count : Int)
      - 2 * 1
      + (env.marker_EOI.length : Int)
  else
    ((env.write_header image).length : Int)
      + (scan_header_size_sum env image encoder.coder.param_image.comp_count : Int)
      + (segment_size_sum (coder_after_gpu env encoder.coder image)
          (first_segment encoder.coder encoder.coder.param_image.comp_count) : Int)
      - 2 * (encoder.coder.param_image.comp_count : Int)
      + (env.marker_EOI.length : Int)

/-- An environment in which every stage succeeds, with a header of 20 bytes and a parallel
coder that delivers two segments of 2^30 - 4 bytes each, one after the other in a
compressed-data region of 2^31 - 8 bytes (the size of the region is a C `int`). -/
def large_env : Collaborators :=
  { sample_env with
    write_header := fun _ => [255, 216] ++ List.replicate 18 0
    data_compressed := fun _ _ => 0
    segment := fun _ i => ⟨i * 1073741820, if i < 2 then 1073741820 else 0⟩ }

/-- A session for an image of 32768 by 16384 pixels in interleaved mode whose segment array has
two segments. -/
def large_encoder : gpujpeg_encoder :=
  { coder :=
      { param := ⟨100, 8388608, 1⟩
        param_image := ⟨32768, 16384, 3⟩
        component := fun _ => ⟨32768, 16384, 0⟩
        segment_count := 2
        segment := fun _ => ⟨0, 0⟩
        data_compressed := fun _ => 0 }
    writer := ⟨1000, 1000, fun _ => 0⟩ }

/-- Modelled from the spec: the segments of a session with `restart_interval > 0`, which
`gpujpeg_coder_init` and the parallel entropy coder, both outside `gpujpeg_encoder.c`, lay out.
Section 3 makes a Segment a restart-marker-bounded unit of a component's coefficient stream,
section 4.2 has scan assembly strip the final restart marker of every scan, and section 8 has
a non-empty segment array and a trailing restart marker, then stripped, in every scan.  So every
scan has at least one segment. -/
def scans_have_segments (coder : gpujpeg_coder) : Prop :=
  ∀ s ∈ scan_layout coder, 1 ≤ s.2.2

/-- Modelled from the spec: the compressed segment bytes of every scan of a session with
`restart_interval > 0` end with the 2 bytes of a restart marker (sections 3, 4.2 and 8; the
parallel entropy coder that writes them is outside `gpujpeg_encoder.c`).  Stated by what scan
assembly relies on: the segments of each scan hold at least 2 bytes. -/
def scans_hold_trailing_marker (coder : gpujpeg_coder) : Prop :=
  ∀ s ∈ scan_layout coder, 2 ≤ (scan_bytes coder s.2.1 s.2.2).length

/-- The assumption of the specification on the parallel coder, for every segment of every scan:
its compressed bytes end with a 2-byte restart marker and hold no other. -/
def segments_end_with_marker (coder : gpujpeg_coder) : Prop :=
  ∀ s ∈ scan_layout coder, ∀ k, k < s.2.2 →
    segment_ends_with_marker (segment_bytes coder (s.2.1 + k))

instance (coder : gpujpeg_coder) : Decidable (scans_have_segments coder) := by
  unfold scans_have_segments
  infer_instance

instance (coder : gpujpeg_coder) : Decidable (scans_hold_trailing_marker coder) := by
  unfold scans_hold_trailing_marker
  infer_instance

instance (coder : gpujpeg_coder) : Decidable (segments_end_with_marker coder) := by
  unfold segments_end_with_marker
  infer_instance

theorem emit_nil (w : gpujpeg_writer) : w.emit [] = w := by
  cases w with
  | mk b c m =>
    simp only [gpujpeg_writer.emit, List.length_nil, Nat.cast_zero, add_zero]
    congr
    funext a
    have : ¬ (c ≤ a ∧ a < c) := by omega
    simp [this]

theorem emit_append (w : gpujpeg_writer) (xs ys : List Byte) :
    (w.emit xs).emit ys = w.emit (xs ++ ys) := by
  cases w with
  | mk b c m =>
    simp only [gpujpeg_writer.emit, List.length_append, Nat.cast_add]
    congr 1
    · exact add_assoc _ _ _
    · funext a
      by_cases h1 : c + (xs.length : Int) ≤ a ∧ a < c + xs.length + ys.length
      · have h2 : c ≤ a ∧ a < c + (↑xs.length + ↑ys.length) := by omega
        rw [if_pos h1, if_pos h2]
        have h3 : (a - c).toNat = xs.length + (a - (c + ↑xs.length)).toNat := by omega
        rw [h3, List.getD_eq_getElem?_getD, List.getD_eq_getElem?_getD,
          List.getElem?_append_right (by omega)]
        simp
      · rw [if_neg h1]
        by_cases h2 : c ≤ a ∧ a < c + ↑xs.length
        · have h3 : c ≤ a ∧ a < c + (↑xs.length + ↑ys.length) := by omega
          rw [if_pos h2, if_pos h3, List.getD_eq_getElem?_getD, List.getD_eq_getElem?_getD,
            List.getElem?_append_left (by omega)]
        · have h3 : ¬ (c ≤ a ∧ a < c + (↑xs.length + ↑ys.length)) := by omega
          rw [if_neg h2, if_neg h3]

theorem view_emit (w : gpujpeg_writer) (bs : List Byte) (h : w.buffer ≤ w.buffer_current) :
    (w.emit bs).view = w.view ++ bs := by
  apply List.ext_getElem
  · simp [gpujpeg_writer.view, gpujpeg_writer.emit]; omega
  · intro i h1 h2
    simp only [gpujpeg_writer.view, gpujpeg_writer.emit, List.getElem_map, List.getElem_range]
    by_cases hi : i < (w.buffer_current - w.buffer).toNat
    · rw [List.getElem_append_left (by simpa [gpujpeg_writer.view] using hi)]
      have : ¬ (w.buffer_current ≤ w.buffer + (i : Int) ∧
          w.buffer + (i : Int) < w.buffer_current + bs.length) := by omega
      simp [this]
    · rw [List.getElem_append_right (by simpa [gpujpeg_writer.view] using hi)]
      simp only [gpujpeg_writer.view, List.length_map, List.length_range, List.length_append] at h2 ⊢
      have h3 : w.buffer_current ≤ w.buffer + (i : Int) ∧
          w.buffer + (i : Int) < w.buffer_current + bs.length := by omega
      rw [if_pos h3, List.getD_eq_getElem?_getD]
      have h4 : (w.buffer + (i : Int) - w.buffer_current).toNat
          = i - (w.buffer_current - w.buffer).toNat := by omega
      rw [h4, List.getElem?_eq_getElem (by omega)]
      simp

theorem view_retract (w : gpujpeg_writer) :
    ({ w with buffer_current := w.buffer_current - 2 } : gpujpeg_writer).view
      = strip_last 2 w.view := by
  apply List.ext_getElem
  · simp [gpujpeg_writer.view, strip_last]; omega
  · intro i h1 h2
    simp [gpujpeg_writer.view, strip_last]
theorem write_scan_data_snd (coder : gpujpeg_coder) (n si : Nat) (r : Run) :
    (write_scan_data coder n si r).2 = si + n := by
  induction n generalizing si r with
  | zero => rfl
  | succ n ih => rw [write_scan_data, ih]; omega

theorem write_scan_data_writer (coder : gpujpeg_coder) (n si : Nat) (r : Run) :
    (write_scan_data coder n si r).1.writer = r.writer.emit (scan_bytes coder si n) := by
  induction n generalizing si r with
  | zero => simp [write_scan_data, scan_bytes, emit_nil]
  | succ n ih =>
    rw [write_scan_data, ih]
    simp [Run.emit, scan_bytes, List.range'_succ, emit_append]

theorem write_scan_data_trace (coder : gpujpeg_coder) (n si : Nat) (r : Run) :
    (write_scan_data coder n si r).1.trace
      = r.trace ++ (List.range' si n).map Event.memcpy_segment := by
  induction n generalizing si r with
  | zero => simp [write_scan_data]
  | succ n ih =>
    rw [write_scan_data, ih]
    simp [Run.emit, List.range'_succ]

theorem write_component_scans_snoc (env : Collaborators) (image : List Byte)
    (coder : gpujpeg_coder) (n comp si : Nat) (r : Run) :
    write_component_scans env image coder (n + 1) comp si r
      = scan_step env image coder (comp + n) (write_component_scans env image coder n comp si r) := by
  induction n generalizing comp si r with
  | zero => simp [write_component_scans, scan_step]
  | succ n ih =>
    rw [write_component_scans, ih]
    have : comp + 1 + n = comp + (n + 1) := by omega
    rw [this]
    conv_rhs => rw [write_component_scans]

theorem segment_bytes_length (coder : gpujpeg_coder) (i : Nat) :
    (segment_bytes coder i).length = (coder.segment i).data_compressed_size := by
  simp [segment_bytes]

theorem scan_bytes_append (coder : gpujpeg_coder) (first a b : Nat) :
    scan_bytes coder first (a + b) = scan_bytes coder first a ++ scan_bytes coder (first + a) b := by
  rw [scan_bytes, Nat.add_comm a b, ← List.range'_append_1, List.map_append, List.flatten_append]
  rfl

theorem scan_bytes_length (coder : gpujpeg_coder) (n : Nat) :
    (scan_bytes coder 0 n).length = segment_size_sum coder n := by
  induction n with
  | zero => simp [scan_bytes, segment_size_sum]
  | succ n ih =>
    rw [scan_bytes_append, List.length_append, ih]
    simp [scan_bytes, segment_size_sum, List.range_succ, segment_bytes_length]

theorem first_segment_succ (coder : gpujpeg_coder) (comp : Nat) :
    first_segment coder (comp + 1) = first_segment coder comp + (coder.component comp).segment_count := by
  simp [first_segment, List.range_succ]
theorem dct_loop_ok (status : Nat → Int) (n comp : Nat) (tr : List Event) :
    (dct_loop status n comp tr).2 = true ↔ ∀ k, k < n → status (comp + k) = 0 := by
  induction n generalizing comp tr with
  | zero => simp [dct_loop]
  | succ n ih =>
    rw [dct_loop]
    by_cases h : status comp = 0
    · simp only [h, ne_eq, not_true_eq_false, if_false, ih]
      constructor
      · intro hk k hk1
        cases k with
        | zero => simpa using h
        | succ k =>
          have := hk k (by omega)
          rwa [show comp + 1 + k = comp + (k + 1) by omega] at this
      · intro hk k hk1
        have := hk (k + 1) (by omega)
        rwa [show comp + (k + 1) = comp + 1 + k by omega] at this
    · simp only [ne_eq, h, not_false_eq_true, if_true, Bool.false_eq_true, false_iff]
      intro hk
      exact h (by simpa using hk 0 (by omega))

theorem dct_loop_trace (status : Nat → Int) (n comp : Nat) (tr : List Event)
    (h : ∀ k, k < n → status (comp + k) = 0) :
    (dct_loop status n comp tr).1 = tr ++ (List.range' comp n).map Event.dct_quant := by
  induction n generalizing comp tr with
  | zero => simp [dct_loop]
  | succ n ih =>
    have h0 : status comp = 0 := by simpa using h 0 (by omega)
    rw [dct_loop]
    simp only [h0, ne_eq, not_true_eq_false, if_false]
    rw [ih]
    · simp [List.range'_succ]
    · intro k hk
      have := h (k + 1) (by omega)
      rwa [show comp + (k + 1) = comp + 1 + k by omega] at this

theorem encode_parallel_ok (env : Collaborators) (encoder : gpujpeg_encoder) (image : List Byte)
    (ic ics : Int) (hri : 0 < encoder.coder.param.restart_interval)
    (hok : parallel_stages_succeed env encoder image) :
    gpujpeg_encoder_encode env encoder image ic ics
      = encode_finish env (coder_after_gpu env encoder.coder image)
          (write_scans env image (coder_after_gpu env encoder.coder image)
            ⟨({ encoder.writer with buffer_current := encoder.writer.buffer } :
                gpujpeg_writer).emit (env.write_header image),
             parallel_head_trace encoder.coder.param_image.comp_count⟩) := by
  obtain ⟨h1, h2, h3, h4, h5, h6⟩ := hok
  have hd : ∀ k, k < encoder.coder.param_image.comp_count →
      env.nppiDCTQuantFwd8x8LS image (0 + k) = 0 := by
    intro k hk; simpa using h3 k hk
  have hd2 := (dct_loop_ok (env.nppiDCTQuantFwd8x8LS image) _ 0
    [Event.cudaMemcpy_raw, Event.preprocessor_encode]).2 hd
  have hd1 := dct_loop_trace (env.nppiDCTQuantFwd8x8LS image) _ 0
    [Event.cudaMemcpy_raw, Event.preprocessor_encode] hd
  have hri' : encoder.coder.param.restart_interval ≠ 0 := by omega
  simp only [gpujpeg_encoder_encode, h1, h2, h4, h5, h6, hd2, hd1, hri', ne_eq,
    not_true_eq_false, if_false, Bool.true_eq_false]
  simp [coder_after_gpu, parallel_head_trace, Run.emit]
theorem scan_headers_written_append (a b : List Event) :
    scan_headers_written (a ++ b) = scan_headers_written a ++ scan_headers_written b := by
  simp [scan_headers_written, List.filterMap_append]

theorem segments_appended_append (a b : List Event) :
    segments_appended (a ++ b) = segments_appended a ++ segments_appended b := by
  simp [segments_appended, List.filterMap_append]

theorem retracted_bytes_append (a b : List Event) :
    retracted_bytes (a ++ b) = retracted_bytes a ++ retracted_bytes b := by
  simp [retracted_bytes, List.filterMap_append]

theorem scan_headers_written_memcpy (l : List Nat) :
    scan_headers_written (l.map Event.memcpy_segment) = [] := by
  induction l with
  | nil => rfl
  | cons a l ih => simp [scan_headers_written]

theorem segments_appended_memcpy (l : List Nat) :
    segments_appended (l.map Event.memcpy_segment) = l := by
  induction l with
  | nil => rfl
  | cons a l ih => simpa [segments_appended] using ih

theorem retracted_bytes_memcpy (l : List Nat) :
    retracted_bytes (l.map Event.memcpy_segment) = [] := by
  induction l with
  | nil => rfl
  | cons a l ih => simp [retracted_bytes]

theorem scan_headers_written_dct (l : List Nat) :
    scan_headers_written (l.map Event.dct_quant) = [] := by
  induction l with
  | nil => rfl
  | cons a l ih => simp [scan_headers_written]

theorem segments_appended_dct (l : List Nat) :
    segments_appended (l.map Event.dct_quant) = [] := by
  induction l with
  | nil => rfl
  | cons a l ih => simp [segments_appended]

theorem retracted_bytes_dct (l : List Nat) :
    retracted_bytes (l.map Event.dct_quant) = [] := by
  induction l with
  | nil => rfl
  | cons a l ih => simp [retracted_bytes]

theorem scan_headers_written_head (n : Nat) :
    scan_headers_written (parallel_head_trace n) = [] := by
  simp [parallel_head_trace, scan_headers_written_append, scan_headers_written_dct]
  simp [scan_headers_written]

theorem segments_appended_head (n : Nat) :
    segments_appended (parallel_head_trace n) = [] := by
  simp [parallel_head_trace, segments_appended_append, segments_appended_dct]
  simp [segments_appended]

theorem retracted_bytes_head (n : Nat) :
    retracted_bytes (parallel_head_trace n) = [] := by
  simp [parallel_head_trace, retracted_bytes_append, retracted_bytes_dct]
  simp [retracted_bytes]

/-- The effect of one iteration of the per-component loop. -/
theorem scan_step_eq (env : Collaborators) (image : List Byte) (coder : gpujpeg_coder)
    (comp : Nat) (s : Run × Nat) :
    (scan_step env image coder comp s).2 = s.2 + (coder.component comp).segment_count ∧
    (scan_step env image coder comp s).1.writer.buffer = s.1.writer.buffer ∧
    (scan_step env image coder comp s).1.writer.buffer_current
      = s.1.writer.buffer_current + (env.write_scan_header image comp).length
        + (scan_bytes coder s.2 (coder.component comp).segment_count).length - 2 ∧
    scan_headers_written (scan_step env image coder comp s).1.trace
      = scan_headers_written s.1.trace ++ [comp] ∧
    segments_appended (scan_step env image coder comp s).1.trace
      = segments_appended s.1.trace ++ List.range' s.2 (coder.component comp).segment_count := by
  simp only [scan_step, Run.retract, write_scan_data_snd, write_scan_data_writer,
    write_scan_data_trace, Run.emit, gpujpeg_writer.emit, scan_headers_written_append,
    segments_appended_append, scan_headers_written_memcpy, segments_appended_memcpy]
  simp [scan_headers_written, segments_appended]

theorem segment_size_sum_add (coder : gpujpeg_coder) (a b : Nat) :
    segment_size_sum coder (a + b) = segment_size_sum coder a + (scan_bytes coder a b).length := by
  rw [← scan_bytes_length, ← scan_bytes_length, scan_bytes_append, List.length_append]
  simp

/-- The state of the per-component loop after `n` iterations from component 0, segment 0. -/
theorem write_component_scans_state (env : Collaborators) (image : List Byte)
    (coder : gpujpeg_coder) (n : Nat) (r : Run) :
    (write_component_scans env image coder n 0 0 r).2 = first_segment coder n ∧
    (write_component_scans env image coder n 0 0 r).1.writer.buffer = r.writer.buffer ∧
    (write_component_scans env image coder n 0 0 r).1.writer.buffer_current
      = r.writer.buffer_current + (scan_header_size_sum env image n : Int)
        + (segment_size_sum coder (first_segment coder n) : Int) - 2 * (n : Int) ∧
    scan_headers_written (write_component_scans env image coder n 0 0 r).1.trace
      = scan_headers_written r.trace ++ List.range n ∧
    segments_appended (write_component_scans env image coder n 0 0 r).1.trace
      = segments_appended r.trace ++ List.range (first_segment coder n) := by
  induction n with
  | zero =>
    simp [write_component_scans, first_segment, scan_header_size_sum, segment_size_sum]
  | succ n ih =>
    obtain ⟨h1, h2, h3, h4, h5⟩ := ih
    obtain ⟨k1, k2, k3, k4, k5⟩ := scan_step_eq env image coder (0 + n)
      (write_component_scans env image coder n 0 0 r)
    rw [write_component_scans_snoc]
    rw [k1, k2, k3, k4, k5, h1, h2, h3, h4, h5]
    simp only [zero_add, first_segment_succ, segment_size_sum_add]
    refine ⟨trivial, trivial, ?_, ?_, ?_⟩
    · simp only [scan_header_size_sum, List.range_succ, List.map_append, List.sum_append,
        List.map_cons, List.map_nil, List.sum_cons, List.sum_nil]
      push_cast
      ring
    · simp [List.range_succ]
    · have hr := List.range'_append_1 0 (first_segment coder n) (coder.component n).segment_count
      rw [Nat.zero_add] at hr
      rw [List.append_assoc, List.range_eq_range', List.range_eq_range', hr, Nat.add_comm]
theorem emit_buffer (w : gpujpeg_writer) (bs : List Byte) : (w.emit bs).buffer = w.buffer := rfl

theorem emit_buffer_current (w : gpujpeg_writer) (bs : List Byte) :
    (w.emit bs).buffer_current = w.buffer_current + bs.length := rfl

/-- Cursor and log after scan assembly in interleaved mode. -/
theorem write_scans_interleaved (env : Collaborators) (image : List Byte) (coder : gpujpeg_coder)
    (r : Run) (h : coder.param.interleaved = 1) :
    (write_scans env image coder r).writer.buffer = r.writer.buffer ∧
    (write_scans env image coder r).writer.buffer_current
      = r.writer.buffer_current + ((env.write_scan_header image 0).length : Int)
        + (segment_size_sum coder coder.segment_count : Int) - 2 ∧
    scan_headers_written (write_scans env image coder r).trace
      = scan_headers_written r.trace ++ [0] ∧
    segments_appended (write_scans env image coder r).trace
      = segments_appended r.trace ++ List.range coder.segment_count := by
  simp only [write_scans, h, if_true, Run.retract, write_scan_data_writer, write_scan_data_trace,
    Run.emit, emit_buffer, emit_buffer_current, scan_headers_written_append,
    segments_appended_append, scan_headers_written_memcpy, segments_appended_memcpy,
    scan_bytes_length, List.range_eq_range']
  simp [scan_headers_written, segments_appended]

/-- Cursor and log after scan assembly in non-interleaved mode. -/
theorem write_scans_separate (env : Collaborators) (image : List Byte) (coder : gpujpeg_coder)
    (r : Run) (h : ¬ coder.param.interleaved = 1) :
    (write_scans env image coder r).writer.buffer = r.writer.buffer ∧
    (write_scans env image coder r).writer.buffer_current
      = r.writer.buffer_current + (scan_header_size_sum env image coder.param_image.comp_count : Int)
        + (segment_size_sum coder (first_segment coder coder.param_image.comp_count) : Int)
        - 2 * (coder.param_image.comp_count : Int) ∧
    scan_headers_written (write_scans env image coder r).trace
      = scan_headers_written r.trace ++ List.range coder.param_image.comp_count ∧
    segments_appended (write_scans env image coder r).trace
      = segments_appended r.trace
        ++ List.range (first_segment coder coder.param_image.comp_count) := by
  simp only [write_scans, h, if_false]
  exact (write_component_scans_state env image coder coder.param_image.comp_count r).2

theorem encode_finish_eq (env : Collaborators) (coder : gpujpeg_coder) (r : Run) :
    (encode_finish env coder r).status = 0 ∧
    (encode_finish env coder r).encoder.coder = coder ∧
    (encode_finish env coder r).encoder.writer = r.writer.emit env.marker_EOI ∧
    (encode_finish env coder r).image_compressed = r.writer.buffer ∧
    (encode_finish env coder r).image_compressed_size
      = to_int (r.writer.buffer_current + (env.marker_EOI.length : Int) - r.writer.buffer) ∧
    (encode_finish env coder r).trace = r.trace ++ [Event.emit_marker_EOI] := by
  simp [encode_finish, Run.emit, emit_buffer, emit_buffer_current]

theorem emit_mem_inside (w : gpujpeg_writer) (bs : List Byte) (a : Int)
    (h : w.buffer_current ≤ a ∧ a < w.buffer_current + bs.length) :
    (w.emit bs).mem a = bs.getD (a - w.buffer_current).toNat 0 := by
  simp only [gpujpeg_writer.emit, if_pos h]

theorem strip_last_append (xs ys : List Byte) (h : 2 ≤ ys.length) :
    strip_last 2 (xs ++ ys) = xs ++ strip_last 2 ys := by
  simp only [strip_last, List.length_append]
  rw [List.take_append_eq_append_take]
  have h1 : xs.length + ys.length - 2 - xs.length = ys.length - 2 := by omega
  rw [h1, List.take_of_length_le (by omega)]

/-- The bytes that stand right before the cursor after `bs`, of at least two bytes, was emitted. -/
theorem emit_last_two (w : gpujpeg_writer) (bs : List Byte) (h : 2 ≤ bs.length) :
    (w.emit bs).mem ((w.emit bs).buffer_current - 2) = (last_two bs).1 ∧
    (w.emit bs).mem ((w.emit bs).buffer_current - 1) = (last_two bs).2 := by
  constructor
  · rw [emit_buffer_current, emit_mem_inside w bs _ (by omega)]
    simp only [last_two]
    congr 1
    omega
  · rw [emit_buffer_current, emit_mem_inside w bs _ (by omega)]
    simp only [last_two]
    congr 1
    omega

/-- One iteration of the per-component loop when the component has at least two bytes of
segment data and the cursor is not before the buffer start. -/
theorem scan_step_view (env : Collaborators) (image : List Byte) (coder : gpujpeg_coder)
    (comp : Nat) (s : Run × Nat) (hb : s.1.writer.buffer ≤ s.1.writer.buffer_current)
    (hD : 2 ≤ (scan_bytes coder s.2 (coder.component comp).segment_count).length) :
    (scan_step env image coder comp s).1.writer.buffer
      ≤ (scan_step env image coder comp s).1.writer.buffer_current ∧
    (scan_step env image coder comp s).1.writer.view
      = s.1.writer.view ++ (env.write_scan_header image comp
          ++ strip_last 2 (scan_bytes coder s.2 (coder.component comp).segment_count)) ∧
    (scan_step env image coder comp s).1.trace
      = s.1.trace ++ (Event.write_scan_header comp
          :: (List.range' s.2 (coder.component comp).segment_count).map Event.memcpy_segment
          ++ [Event.retract
                (last_two (scan_bytes coder s.2 (coder.component comp).segment_count)).1
                (last_two (scan_bytes coder s.2 (coder.component comp).segment_count)).2]) := by
  obtain ⟨l1, l2⟩ := emit_last_two (s.1.writer.emit (env.write_scan_header image comp))
    (scan_bytes coder s.2 (coder.component comp).segment_count) hD
  simp only [scan_step, Run.retract, write_scan_data_writer, write_scan_data_trace, Run.emit,
    l1, l2]
  refine ⟨?_, ?_, ?_⟩
  · simp only [emit_buffer, emit_buffer_current]
    omega
  · rw [view_retract, view_emit _ _ (by simp only [emit_buffer, emit_buffer_current]; omega),
      view_emit _ _ hb, ← List.append_assoc, strip_last_append _ _ hD, List.append_assoc]
  · simp
/-- The per-component loop after `n` iterations when each of these components has at least two
bytes of segment data: bytes up to the cursor and log. -/
theorem write_component_scans_view (env : Collaborators) (image : List Byte)
    (coder : gpujpeg_coder) (n : Nat) (r : Run) (hb : r.writer.buffer ≤ r.writer.buffer_current)
    (hD : ∀ c, c < n → 2 ≤ (component_scan_bytes coder c).length) :
    (write_component_scans env image coder n 0 0 r).1.writer.buffer
      ≤ (write_component_scans env image coder n 0 0 r).1.writer.buffer_current ∧
    (write_component_scans env image coder n 0 0 r).1.writer.view
      = r.writer.view ++ ((List.range n).map (fun c =>
          env.write_scan_header image c ++ strip_last 2 (component_scan_bytes coder c))).flatten ∧
    (write_component_scans env image coder n 0 0 r).1.trace
      = r.trace ++ ((List.range n).map (component_scan_events coder)).flatten := by
  induction n with
  | zero => simpa [write_component_scans] using hb
  | succ n ih =>
    obtain ⟨h1, h2, h3⟩ := ih (fun c hc => hD c (by omega))
    have hs := (write_component_scans_state env image coder n r).1
    have hDn := hD n (by omega)
    rw [component_scan_bytes, ← hs] at hDn
    obtain ⟨k1, k2, k3⟩ := scan_step_view env image coder n
      (write_component_scans env image coder n 0 0 r) h1 hDn
    rw [write_component_scans_snoc, Nat.zero_add]
    refine ⟨k1, ?_, ?_⟩
    · rw [k2, h2, hs]
      simp [List.range_succ, component_scan_bytes]
    · rw [k3, h3, hs]
      simp [List.range_succ, component_scan_events, component_scan_bytes]

theorem view_reset (w : gpujpeg_writer) :
    ({ w with buffer_current := w.buffer } : gpujpeg_writer).view = [] := by
  simp [gpujpeg_writer.view]

theorem encode_finish_output (env : Collaborators) (coder : gpujpeg_coder) (r : Run) :
    (encode_finish env coder r).output = (r.writer.emit env.marker_EOI).view := rfl

/-- Scan assembly in non-interleaved mode when every component has at least two bytes of
segment data. -/
theorem write_scans_separate_view (env : Collaborators) (image : List Byte)
    (coder : gpujpeg_coder) (r : Run) (h : ¬ coder.param.interleaved = 1)
    (hb : r.writer.buffer ≤ r.writer.buffer_current)
    (hD : ∀ c, c < coder.param_image.comp_count → 2 ≤ (component_scan_bytes coder c).length) :
    (write_scans env image coder r).writer.buffer
      ≤ (write_scans env image coder r).writer.buffer_current ∧
    (write_scans env image coder r).writer.view
      = r.writer.view ++ ((List.range coder.param_image.comp_count).map (fun c =>
          env.write_scan_header image c ++ strip_last 2 (component_scan_bytes coder c))).flatten ∧
    (write_scans env image coder r).trace
      = r.trace ++ ((List.range coder.param_image.comp_count).map
          (component_scan_events coder)).flatten := by
  simp only [write_scans, h, if_false]
  exact write_component_scans_view env image coder coder.param_image.comp_count r hb hD

/-- Scan assembly in interleaved mode when the segments hold at least two bytes in all. -/
theorem write_scans_interleaved_view (env : Collaborators) (image : List Byte)
    (coder : gpujpeg_coder) (r : Run) (h : coder.param.interleaved = 1)
    (hb : r.writer.buffer ≤ r.writer.buffer_current)
    (hD : 2 ≤ (scan_bytes coder 0 coder.segment_count).length) :
    (write_scans env image coder r).writer.buffer
      ≤ (write_scans env image coder r).writer.buffer_current ∧
    (write_scans env image coder r).writer.view
      = r.writer.view ++ (env.write_scan_header image 0
          ++ strip_last 2 (scan_bytes coder 0 coder.segment_count)) ∧
    (write_scans env image coder r).trace
      = r.trace ++ (Event.write_scan_header 0
          :: (List.range' 0 coder.segment_count).map Event.memcpy_segment
          ++ [Event.retract (last_two (scan_bytes coder 0 coder.segment_count)).1
                (last_two (scan_bytes coder 0 coder.segment_count)).2]) := by
  obtain ⟨l1, l2⟩ := emit_last_two (r.writer.emit (env.write_scan_header image 0))
    (scan_bytes coder 0 coder.segment_count) hD
  simp only [write_scans, h, if_true, Run.retract, write_scan_data_writer,
    write_scan_data_trace, Run.emit, l1, l2]
  refine ⟨?_, ?_, ?_⟩
  · simp only [emit_buffer, emit_buffer_current]
    omega
  · rw [view_retract, view_emit _ _ (by simp only [emit_buffer, emit_buffer_current]; omega),
      view_emit _ _ hb, ← List.append_assoc, strip_last_append _ _ hD, List.append_assoc]
  · simp
/-- The writer right after the header was written: the cursor is not before the buffer start and
the bytes up to it are the header. -/
theorem header_view (w : gpujpeg_writer) (hdr : List Byte) :
    (({ w with buffer_current := w.buffer } : gpujpeg_writer).emit hdr).buffer
      ≤ (({ w with buffer_current := w.buffer } : gpujpeg_writer).emit hdr).buffer_current ∧
    (({ w with buffer_current := w.buffer } : gpujpeg_writer).emit hdr).view = hdr := by
  constructor
  · simp only [emit_buffer, emit_buffer_current]
    omega
  · rw [view_emit _ _ (le_refl _), view_reset, List.nil_append]

/-- A successful encode in non-interleaved mode, every component having at least two bytes of
segment data: status, output bytes and log. -/
theorem encode_separate_result (env : Collaborators) (encoder : gpujpeg_encoder)
    (image : List Byte) (ic ics : Int) (hri : 0 < encoder.coder.param.restart_interval)
    (hok : parallel_stages_succeed env encoder image)
    (hil : ¬ encoder.coder.param.interleaved = 1)
    (hD : ∀ c, c < encoder.coder.param_image.comp_count →
      2 ≤ (component_scan_bytes (coder_after_gpu env encoder.coder image) c).length) :
    (gpujpeg_encoder_encode env encoder image ic ics).status = 0 ∧
    (gpujpeg_encoder_encode env encoder image ic ics).output
      = env.write_header image
        ++ ((List.range encoder.coder.param_image.comp_count).map (fun c =>
            env.write_scan_header image c
              ++ strip_last 2 (component_scan_bytes (coder_after_gpu env encoder.coder image) c))).flatten
        ++ env.marker_EOI ∧
    (gpujpeg_encoder_encode env encoder image ic ics).trace
      = parallel_head_trace encoder.coder.param_image.comp_count
        ++ ((List.range encoder.coder.param_image.comp_count).map
            (component_scan_events (coder_after_gpu env encoder.coder image))).flatten
        ++ [Event.emit_marker_EOI] := by
  rw [encode_parallel_ok env encoder image ic ics hri hok, encode_finish_output]
  obtain ⟨b0, v0⟩ := header_view encoder.writer (env.write_header image)
  obtain ⟨h1, h2, h3⟩ := write_scans_separate_view env image
    (coder_after_gpu env encoder.coder image)
    ⟨({ encoder.writer with buffer_current := encoder.writer.buffer } :
        gpujpeg_writer).emit (env.write_header image),
     parallel_head_trace encoder.coder.param_image.comp_count⟩ hil b0 hD
  rw [view_emit _ _ h1, h2, v0]
  exact ⟨rfl, rfl, by rw [(encode_finish_eq _ _ _).2.2.2.2.2, h3]; rfl⟩

/-- A successful encode in interleaved mode, the segments holding at least two bytes in all:
status, output bytes and log. -/
theorem encode_interleaved_result (env : Collaborators) (encoder : gpujpeg_encoder)
    (image : List Byte) (ic ics : Int) (hri : 0 < encoder.coder.param.restart_interval)
    (hok : parallel_stages_succeed env encoder image)
    (hil : encoder.coder.param.interleaved = 1)
    (hD : 2 ≤ (scan_bytes (coder_after_gpu env encoder.coder image) 0
      encoder.coder.segment_count).length) :
    (gpujpeg_encoder_encode env encoder image ic ics).status = 0 ∧
    (gpujpeg_encoder_encode env encoder image ic ics).output
      = env.write_header image
        ++ (env.write_scan_header image 0
          ++ strip_last 2 (scan_bytes (coder_after_gpu env encoder.coder image) 0
              encoder.coder.segment_count))
        ++ env.marker_EOI ∧
    (gpujpeg_encoder_encode env encoder image ic ics).trace
      = parallel_head_trace encoder.coder.param_image.comp_count
        ++ (Event.write_scan_header 0
          :: (List.range' 0 encoder.coder.segment_count).map Event.memcpy_segment
          ++ [Event.retract
                (last_two (scan_bytes (coder_after_gpu env encoder.coder image) 0
                  encoder.coder.segment_count)).1
                (last_two (scan_bytes (coder_after_gpu env encoder.coder image) 0
                  encoder.coder.segment_count)).2])
        ++ [Event.emit_marker_EOI] := by
  rw [encode_parallel_ok env encoder image ic ics hri hok, encode_finish_output]
  obtain ⟨b0, v0⟩ := header_view encoder.writer (env.write_header image)
  obtain ⟨h1, h2, h3⟩ := write_scans_interleaved_view env image
    (coder_after_gpu env encoder.coder image)
    ⟨({ encoder.writer with buffer_current := encoder.writer.buffer } :
        gpujpeg_writer).emit (env.write_header image),
     parallel_head_trace encoder.coder.param_image.comp_count⟩ hil b0 hD
  rw [view_emit _ _ h1, h2, v0]
  exact ⟨rfl, rfl, by rw [(encode_finish_eq _ _ _).2.2.2.2.2, h3]; rfl⟩
/-- Scan headers written and segments appended by a successful encode on the branch
`restart_interval > 0`. -/
theorem encode_parallel_log (env : Collaborators) (encoder : gpujpeg_encoder)
    (image : List Byte) (ic ics : Int) (hri : 0 < encoder.coder.param.restart_interval)
    (hok : parallel_stages_succeed env encoder image) :
    scan_headers_written (gpujpeg_encoder_encode env encoder image ic ics).trace
      = (if encoder.coder.param.interleaved = 1 then [0]
         else List.range encoder.coder.param_image.comp_count) ∧
    segments_appended (gpujpeg_encoder_encode env encoder image ic ics).trace
      = (if encoder.coder.param.interleaved = 1 then List.range encoder.coder.segment_count
         else List.range (first_segment encoder.coder encoder.coder.param_image.comp_count)) := by
  rw [encode_parallel_ok env encoder image ic ics hri hok]
  have hE : scan_headers_written [Event.emit_marker_EOI] = []
      ∧ segments_appended [Event.emit_marker_EOI] = [] := ⟨rfl, rfl⟩
  rw [(encode_finish_eq _ _ _).2.2.2.2.2, scan_headers_written_append,
    segments_appended_append, hE.1, hE.2]
  by_cases hil : encoder.coder.param.interleaved = 1
  · obtain ⟨-, -, h4, h5⟩ := write_scans_interleaved env image
      (coder_after_gpu env encoder.coder image)
      ⟨({ encoder.writer with buffer_current := encoder.writer.buffer } :
          gpujpeg_writer).emit (env.write_header image),
       parallel_head_trace encoder.coder.param_image.comp_count⟩ hil
    rw [h4, h5, scan_headers_written_head, segments_appended_head, if_pos hil, if_pos hil]
    exact ⟨rfl, by simp [coder_after_gpu]⟩
  · obtain ⟨-, -, h4, h5⟩ := write_scans_separate env image
      (coder_after_gpu env encoder.coder image)
      ⟨({ encoder.writer with buffer_current := encoder.writer.buffer } :
          gpujpeg_writer).emit (env.write_header image),
       parallel_head_trace encoder.coder.param_image.comp_count⟩ hil
    rw [h4, h5, scan_headers_written_head, segments_appended_head, if_neg hil, if_neg hil]
    exact ⟨by simp [coder_after_gpu], by simp [coder_after_gpu, first_segment]⟩

theorem dct_loop_fails (status : Nat → Int) (n comp : Nat) (tr : List Event) :
    (dct_loop status n comp tr).2 = false ↔ ∃ k, k < n ∧ status (comp + k) ≠ 0 := by
  have h := dct_loop_ok status n comp tr
  constructor
  · intro hf
    by_contra hne
    push_neg at hne
    rw [h.2 hne] at hf
    exact absurd hf (by decide)
  · rintro ⟨k, hk, hs⟩
    cases hb : (dct_loop status n comp tr).2 with
    | false => rfl
    | true => exact absurd (h.1 hb k hk) hs

/-- The status returned by `gpujpeg_encoder_encode` is 0 or -1, and it is -1 exactly when one of
the stages whose status is tested fails. -/
theorem encode_status (env : Collaborators) (encoder : gpujpeg_encoder) (image : List Byte)
    (ic ics : Int) :
    ((gpujpeg_encoder_encode env encoder image ic ics).status = 0 ∨
      (gpujpeg_encoder_encode env encoder image ic ics).status = -1) ∧
    ((gpujpeg_encoder_encode env encoder image ic ics).status = -1
      ↔ some_checked_stage_fails env encoder image) := by
  have hd := dct_loop_fails (env.nppiDCTQuantFwd8x8LS image)
    encoder.coder.param_image.comp_count 0 [Event.cudaMemcpy_raw, Event.preprocessor_encode]
  simp only [Nat.zero_add] at hd
  unfold some_checked_stage_fails gpujpeg_encoder_encode
  by_cases h1 : env.cudaMemcpy_raw image = 0
  · by_cases h2 : env.preprocessor_encode image = 0
    · by_cases h3 : (dct_loop (env.nppiDCTQuantFwd8x8LS image)
          encoder.coder.param_image.comp_count 0
          [Event.cudaMemcpy_raw, Event.preprocessor_encode]).2 = false
      · simp only [h1, h2, h3, ne_eq, not_true_eq_false, if_false, if_true, false_or, true_and]
        exact ⟨Or.inr trivial, ⟨fun _ => Or.inl (hd.1 h3), fun _ => trivial⟩⟩
      · have h3' : ¬ ∃ k, k < encoder.coder.param_image.comp_count ∧
            env.nppiDCTQuantFwd8x8LS image k ≠ 0 := fun hk => h3 (hd.2 hk)
        by_cases h4 : encoder.coder.param.restart_interval = 0
        · by_cases h5 : (env.huffman_cpu_encoder_encode image).1 = 0
          · simp [h1, h2, h3, h3', h4, h5, encode_finish]
          · simp [h1, h2, h3, h3', h4, h5]
        · have h4' : 0 < encoder.coder.param.restart_interval := by omega
          by_cases h5 : env.huffman_gpu_encoder_encode image = 0
          · by_cases h6 : env.cudaMemcpy_compressed image = 0
            · by_cases h7 : env.cudaMemcpy_segment image = 0
              · simp [h1, h2, h3, h3', h4, h4', h5, h6, h7, encode_finish]
              · simp [h1, h2, h3, h3', h4, h4', h5, h6, h7]
            · simp [h1, h2, h3, h3', h4, h4', h5, h6]
          · simp [h1, h2, h3, h3', h4, h4', h5]
    · simp [h1, h2]
  · simp [h1]
theorem dct_loop_fail_trace (status : Nat → Int) (n comp : Nat) (tr : List Event) (k : Nat)
    (hk : k < n) (hz : ∀ j, j < k → status (comp + j) = 0) (hf : status (comp + k) ≠ 0) :
    dct_loop status n comp tr = (tr ++ (List.range' comp (k + 1)).map Event.dct_quant, false) := by
  induction n generalizing comp tr k with
  | zero => omega
  | succ n ih =>
    rw [dct_loop]
    cases k with
    | zero =>
      have hf' : status comp ≠ 0 := by simpa using hf
      simp [hf', List.range'_succ]
    | succ k =>
      have h0 : status comp = 0 := by simpa using hz 0 (by omega)
      simp only [h0, ne_eq, not_true_eq_false, if_false]
      rw [ih (comp + 1) _ k (by omega)
        (fun j hj => by
          have := hz (j + 1) (by omega)
          rwa [show comp + (j + 1) = comp + 1 + j by omega] at this)
        (by rwa [show comp + (k + 1) = comp + 1 + k by omega] at hf)]
      simp [List.range'_succ]

/-- A failing call leaves the caller's out-variables as they were. -/
theorem encode_failure_out (env : Collaborators) (encoder : gpujpeg_encoder) (image : List Byte)
    (ic ics : Int) (hfail : (gpujpeg_encoder_encode env encoder image ic ics).status = -1) :
    (gpujpeg_encoder_encode env encoder image ic ics).image_compressed = ic ∧
    (gpujpeg_encoder_encode env encoder image ic ics).image_compressed_size = ics := by
  revert hfail
  unfold gpujpeg_encoder_encode
  by_cases h1 : env.cudaMemcpy_raw image = 0
  · by_cases h2 : env.preprocessor_encode image = 0
    · by_cases h3 : (dct_loop (env.nppiDCTQuantFwd8x8LS image)
          encoder.coder.param_image.comp_count 0
          [Event.cudaMemcpy_raw, Event.preprocessor_encode]).2 = false
      · simp [h1, h2, h3]
      · by_cases h4 : encoder.coder.param.restart_interval = 0
        · by_cases h5 : (env.huffman_cpu_encoder_encode image).1 = 0
          · simp [h1, h2, h3, h4, h5, encode_finish]
          · simp [h1, h2, h3, h4, h5]
        · by_cases h5 : env.huffman_gpu_encoder_encode image = 0
          · by_cases h6 : env.cudaMemcpy_compressed image = 0
            · by_cases h7 : env.cudaMemcpy_segment image = 0
              · simp [h1, h2, h3, h4, h5, h6, h7, encode_finish]
              · simp [h1, h2, h3, h4, h5, h6, h7]
            · simp [h1, h2, h3, h4, h5, h6]
          · simp [h1, h2, h3, h4, h5]
    · simp [h1, h2]
  · simp [h1]

theorem dct_loop_all (p : Event → Bool) (hp : ∀ k, p (Event.dct_quant k) = true)
    (status : Nat → Int) (n comp : Nat) (tr : List Event) (h : tr.all p = true) :
    (dct_loop status n comp tr).1.all p = true := by
  induction n generalizing comp tr with
  | zero => simpa [dct_loop] using h
  | succ n ih =>
    rw [dct_loop]
    have h' : (tr ++ [Event.dct_quant comp]).all p = true := by
      simp only [List.all_append, h, List.all_cons, hp, List.all_nil, Bool.and_self]
    split
    · exact h'
    · exact ih _ _ h'

theorem write_scan_data_all (coder : gpujpeg_coder) (n si : Nat) (r : Run)
    (h : r.trace.all Event.on_parallel_path = true) :
    (write_scan_data coder n si r).1.trace.all Event.on_parallel_path = true := by
  rw [write_scan_data_trace, List.all_append, h, Bool.true_and, List.all_eq_true]
  intro e he
  obtain ⟨i, -, rfl⟩ := List.mem_map.1 he
  rfl

theorem write_component_scans_all (env : Collaborators) (image : List Byte)
    (coder : gpujpeg_coder) (n comp si : Nat) (r : Run)
    (h : r.trace.all Event.on_parallel_path = true) :
    (write_component_scans env image coder n comp si r).1.trace.all Event.on_parallel_path
      = true := by
  induction n generalizing comp si r with
  | zero => simpa [write_component_scans] using h
  | succ n ih =>
    rw [write_component_scans]
    apply ih
    simp only [Run.retract, List.all_append, List.all_cons, List.all_nil, Bool.and_true]
    rw [write_scan_data_all]
    · rfl
    · simp only [Run.emit, List.all_append, h, List.all_cons, List.all_nil]
      rfl

theorem write_scans_all (env : Collaborators) (image : List Byte) (coder : gpujpeg_coder)
    (r : Run) (h : r.trace.all Event.on_parallel_path = true) :
    (write_scans env image coder r).trace.all Event.on_parallel_path = true := by
  unfold write_scans
  split
  · simp only [Run.retract, List.all_append, List.all_cons, List.all_nil, Bool.and_true]
    rw [write_scan_data_all]
    · rfl
    · simp only [Run.emit, List.all_append, h, List.all_cons, List.all_nil]
      rfl
  · exact write_component_scans_all env image coder _ 0 0 r h

/-- On the branch `restart_interval == 0` only statements of that branch run. -/
theorem encode_trace_sequential (env : Collaborators) (encoder : gpujpeg_encoder)
    (image : List Byte) (ic ics : Int) (hri : encoder.coder.param.restart_interval = 0) :
    (gpujpeg_encoder_encode env encoder image ic ics).trace.all Event.on_sequential_path
      = true := by
  have hd := dct_loop_all Event.on_sequential_path (fun _ => rfl)
    (env.nppiDCTQuantFwd8x8LS image) encoder.coder.param_image.comp_count 0
    [Event.cudaMemcpy_raw, Event.preprocessor_encode] rfl
  unfold gpujpeg_encoder_encode
  simp only [hri, if_true]
  split
  · rfl
  · split
    · rfl
    · split
      · exact hd
      · split
        · simp only [Run.emit, List.all_append, hd, List.all_cons, List.all_nil]
          rfl
        · simp only [encode_finish, Run.emit, List.all_append, hd, List.all_cons, List.all_nil]
          rfl

/-- On the branch `restart_interval != 0` only statements of that branch run. -/
theorem encode_trace_parallel (env : Collaborators) (encoder : gpujpeg_encoder)
    (image : List Byte) (ic ics : Int) (hri : 0 < encoder.coder.param.restart_interval) :
    (gpujpeg_encoder_encode env encoder image ic ics).trace.all Event.on_parallel_path
      = true := by
  have hd := dct_loop_all Event.on_parallel_path (fun _ => rfl)
    (env.nppiDCTQuantFwd8x8LS image) encoder.coder.param_image.comp_count 0
    [Event.cudaMemcpy_raw, Event.preprocessor_encode] rfl
  have hri' : ¬ encoder.coder.param.restart_interval = 0 := by omega
  unfold gpujpeg_encoder_encode
  simp only [hri', if_false]
  split
  · rfl
  · split
    · rfl
    · split
      · exact hd
      · split
        · simp only [Run.emit, List.all_append, hd, List.all_cons, List.all_nil]
          rfl
        · split
          · simp only [Run.emit, List.all_append, hd, List.all_cons, List.all_nil]
            rfl
          · split
            · simp only [Run.emit, List.all_append, hd, List.all_cons, List.all_nil]
              rfl
            · simp only [encode_finish, Run.emit, List.all_append, List.all_cons, List.all_nil,
                Bool.and_true]
              rw [write_scans_all]
              · rfl
              · simp only [Run.emit, List.all_append, hd, List.all_cons, List.all_nil]
                rfl

theorem encode_sequential_ok (env : Collaborators) (encoder : gpujpeg_encoder)
    (image : List Byte) (ic ics : Int) (hri : encoder.coder.param.restart_interval = 0)
    (hok : sequential_stages_succeed env encoder image) :
    gpujpeg_encoder_encode env encoder image ic ics
      = encode_finish env encoder.coder
          ⟨(({ encoder.writer with buffer_current := encoder.writer.buffer } :
              gpujpeg_writer).emit (env.write_header image)).emit
              (env.huffman_cpu_encoder_encode image).2,
           [Event.cudaMemcpy_raw, Event.preprocessor_encode]
            ++ (List.range' 0 encoder.coder.param_image.comp_count).map Event.dct_quant
            ++ [Event.write_header, Event.cudaMemcpy_quantized,
                Event.huffman_cpu_encoder_encode]⟩ := by
  obtain ⟨h1, h2, h3, h4⟩ := hok
  have hd : ∀ k, k < encoder.coder.param_image.comp_count →
      env.nppiDCTQuantFwd8x8LS image (0 + k) = 0 := by
    intro k hk; simpa using h3 k hk
  have hd2 := (dct_loop_ok (env.nppiDCTQuantFwd8x8LS image) _ 0
    [Event.cudaMemcpy_raw, Event.preprocessor_encode]).2 hd
  have hd1 := dct_loop_trace (env.nppiDCTQuantFwd8x8LS image) _ 0
    [Event.cudaMemcpy_raw, Event.preprocessor_encode] hd
  simp only [gpujpeg_encoder_encode, h1, h2, h4, hd2, hd1, hri, ne_eq,
    not_true_eq_false, if_false, if_true, Bool.true_eq_false]
  simp [Run.emit]

theorem filterMap_nil_of_all (p : Event → Bool) {β : Type} (f : Event → Option β)
    (hf : ∀ e, p e = true → f e = none) (tr : List Event) (h : tr.all p = true) :
    tr.filterMap f = [] := by
  induction tr with
  | nil => rfl
  | cons e tr ih =>
    simp only [List.all_cons, Bool.and_eq_true] at h
    rw [List.filterMap_cons, hf e h.1]
    exact ih h.2

theorem not_mem_of_all (p : Event → Bool) (e : Event) (he : p e = false) (tr : List Event)
    (h : tr.all p = true) : e ∉ tr := by
  intro hm
  have := List.all_eq_true.1 h e hm
  rw [he] at this
  exact absurd this (by decide)


theorem writers_agree_emit (w1 w2 : gpujpeg_writer) (bs : List Byte) (h : writers_agree w1 w2) :
    writers_agree (w1.emit bs) (w2.emit bs) := by
  obtain ⟨h1, h2, h3⟩ := h
  refine ⟨h1, by simp only [emit_buffer_current, h2], ?_⟩
  intro a ha1 ha2
  simp only [gpujpeg_writer.emit] at ha1 ha2 ⊢
  rw [← h2]
  by_cases hin : w1.buffer_current ≤ a ∧ a < w1.buffer_current + bs.length
  · rw [if_pos hin, if_pos hin]
  · rw [if_neg hin, if_neg hin]
    exact h3 a ha1 (by omega)

theorem writers_agree_retract (w1 w2 : gpujpeg_writer) (h : writers_agree w1 w2) :
    writers_agree { w1 with buffer_current := w1.buffer_current - 2 }
      { w2 with buffer_current := w2.buffer_current - 2 } := by
  obtain ⟨h1, h2, h3⟩ := h
  refine ⟨h1, by simp only [h2], ?_⟩
  intro a ha1 ha2
  exact h3 a ha1 (by simp only at ha2; omega)

theorem writers_agree_view (w1 w2 : gpujpeg_writer) (h : writers_agree w1 w2) :
    w1.view = w2.view := by
  obtain ⟨h1, h2, h3⟩ := h
  simp only [gpujpeg_writer.view, ← h1, ← h2]
  apply List.map_congr_left
  intro i hi
  rw [List.mem_range] at hi
  exact h3 _ (by omega) (by omega)

theorem writers_agree_reset (w1 w2 : gpujpeg_writer) (h : w1.buffer = w2.buffer) :
    writers_agree { w1 with buffer_current := w1.buffer }
      { w2 with buffer_current := w2.buffer } := by
  refine ⟨h, h, ?_⟩
  intro a ha1 ha2
  simp only at ha1 ha2
  omega

theorem write_component_scans_agree (env : Collaborators) (image : List Byte)
    (coder : gpujpeg_coder) (n comp si : Nat) (r1 r2 : Run)
    (h : writers_agree r1.writer r2.writer) :
    writers_agree (write_component_scans env image coder n comp si r1).1.writer
      (write_component_scans env image coder n comp si r2).1.writer := by
  induction n generalizing comp si r1 r2 with
  | zero => simpa [write_component_scans] using h
  | succ n ih =>
    rw [write_component_scans, write_component_scans, write_scan_data_snd, write_scan_data_snd]
    apply ih
    simp only [Run.retract, write_scan_data_writer, Run.emit]
    exact writers_agree_retract _ _ (writers_agree_emit _ _ _ (writers_agree_emit _ _ _ h))

theorem write_scans_agree (env : Collaborators) (image : List Byte) (coder : gpujpeg_coder)
    (r1 r2 : Run) (h : writers_agree r1.writer r2.writer) :
    writers_agree (write_scans env image coder r1).writer
      (write_scans env image coder r2).writer := by
  unfold write_scans
  split
  · simp only [Run.retract, write_scan_data_writer, Run.emit]
    exact writers_agree_retract _ _ (writers_agree_emit _ _ _ (writers_agree_emit _ _ _ h))
  · exact write_component_scans_agree env image coder _ 0 0 r1 r2 h

theorem encode_finish_returned (env : Collaborators) (c1 c2 : gpujpeg_coder) (r1 r2 : Run)
    (h : writers_agree r1.writer r2.writer) :
    (encode_finish env c1 r1).returned = (encode_finish env c2 r2).returned := by
  have hv := writers_agree_view _ _ (writers_agree_emit _ _ env.marker_EOI h)
  obtain ⟨h1, h2, -⟩ := h
  simp only [encode_result.returned, encode_finish_output, hv]
  simp [encode_finish, Run.emit, emit_buffer, emit_buffer_current, h1, h2]

theorem coder_after_gpu_congr (env : Collaborators) (e1 e2 : gpujpeg_encoder) (image : List Byte)
    (h : same_session e1 e2) :
    coder_after_gpu env e1.coder image = coder_after_gpu env e2.coder image := by
  obtain ⟨h1, h2, h3, h4, -⟩ := h
  simp only [coder_after_gpu, h1, h2, h3, h4]

/-- The value returned by a call depends on the session only through what is fixed at
creation. -/
theorem encode_returned_congr (env : Collaborators) (e1 e2 : gpujpeg_encoder)
    (image : List Byte) (ic ics ic' ics' : Int) (h : same_session e1 e2) :
    (gpujpeg_encoder_encode env e1 image ic ics).returned
      = (gpujpeg_encoder_encode env e2 image ic' ics').returned := by
  have hp := h.1
  have hpi := h.2.1
  have hb := h.2.2.2.2
  obtain ⟨s1, f1⟩ := encode_status env e1 image ic ics
  obtain ⟨s2, f2⟩ := encode_status env e2 image ic' ics'
  have hff : some_checked_stage_fails env e1 image ↔ some_checked_stage_fails env e2 image := by
    simp only [some_checked_stage_fails, hp, hpi]
  by_cases hf : some_checked_stage_fails env e1 image
  · have t1 := f1.2 hf
    have t2 := f2.2 (hff.1 hf)
    simp [encode_result.returned, t1, t2]
  · have hall : env.cudaMemcpy_raw image = 0 ∧ env.preprocessor_encode image = 0 ∧
        (∀ comp, comp < e1.coder.param_image.comp_count →
          env.nppiDCTQuantFwd8x8LS image comp = 0) ∧
        (e1.coder.param.restart_interval = 0 → (env.huffman_cpu_encoder_encode image).1 = 0) ∧
        (0 < e1.coder.param.restart_interval →
          env.huffman_gpu_encoder_encode image = 0 ∧ env.cudaMemcpy_compressed image = 0 ∧
            env.cudaMemcpy_segment image = 0) := by
      unfold some_checked_stage_fails at hf
      push_neg at hf
      obtain ⟨a1, a2, a3, a4, a5⟩ := hf
      exact ⟨a1, a2, a3, a4, a5⟩
    obtain ⟨a1, a2, a3, a4, a5⟩ := hall
    by_cases hri : e1.coder.param.restart_interval = 0
    · rw [encode_sequential_ok env e1 image ic ics hri ⟨a1, a2, a3, a4 hri⟩,
        encode_sequential_ok env e2 image ic' ics' (by rw [← hp]; exact hri)
          ⟨a1, a2, by rw [← hpi]; exact a3, a4 hri⟩]
      exact encode_finish_returned _ _ _ _ _
        (writers_agree_emit _ _ _ (writers_agree_emit _ _ _ (writers_agree_reset _ _ hb)))
    · have hri' : 0 < e1.coder.param.restart_interval := by omega
      obtain ⟨b1, b2, b3⟩ := a5 hri'
      rw [encode_parallel_ok env e1 image ic ics hri' ⟨a1, a2, a3, b1, b2, b3⟩,
        encode_parallel_ok env e2 image ic' ics' (by rw [← hp]; exact hri')
          ⟨a1, a2, by rw [← hpi]; exact a3, b1, b2, b3⟩,
        ← coder_after_gpu_congr env e1 e2 image h]
      exact encode_finish_returned _ _ _ _ _
        (write_scans_agree _ _ _ _ _ (writers_agree_emit _ _ _ (writers_agree_reset _ _ hb)))

theorem write_scans_buffer (env : Collaborators) (image : List Byte) (coder : gpujpeg_coder)
    (r : Run) : (write_scans env image coder r).writer.buffer = r.writer.buffer := by
  by_cases h : coder.param.interleaved = 1
  · exact (write_scans_interleaved env image coder r h).1
  · exact (write_scans_separate env image coder r h).1

/-- A call leaves what is fixed at creation as it is. -/
theorem encode_same_session (env : Collaborators) (encoder : gpujpeg_encoder)
    (image : List Byte) (ic ics : Int) :
    same_session encoder (gpujpeg_encoder_encode env encoder image ic ics).encoder := by
  unfold gpujpeg_encoder_encode same_session
  by_cases h1 : env.cudaMemcpy_raw image = 0
  · by_cases h2 : env.preprocessor_encode image = 0
    · by_cases h3 : (dct_loop (env.nppiDCTQuantFwd8x8LS image)
          encoder.coder.param_image.comp_count 0
          [Event.cudaMemcpy_raw, Event.preprocessor_encode]).2 = false
      · simp [h1, h2, h3]
      · by_cases h4 : encoder.coder.param.restart_interval = 0
        · by_cases h5 : (env.huffman_cpu_encoder_encode image).1 = 0
          · simp [h1, h2, h3, h4, h5, encode_finish, Run.emit, emit_buffer]
          · simp [h1, h2, h3, h4, h5, Run.emit, emit_buffer]
        · by_cases h5 : env.huffman_gpu_encoder_encode image = 0
          · by_cases h6 : env.cudaMemcpy_compressed image = 0
            · by_cases h7 : env.cudaMemcpy_segment image = 0
              · simp [h1, h2, h3, h4, h5, h6, h7, encode_finish, Run.emit, emit_buffer,
                  write_scans_buffer]
              · simp [h1, h2, h3, h4, h5, h6, h7, Run.emit, emit_buffer]
            · simp [h1, h2, h3, h4, h5, h6, Run.emit, emit_buffer]
          · simp [h1, h2, h3, h4, h5, Run.emit, emit_buffer]
    · simp [h1, h2]
  · simp [h1]

theorem same_session_trans {e1 e2 e3 : gpujpeg_encoder} (h1 : same_session e1 e2)
    (h2 : same_session e2 e3) : same_session e1 e3 :=
  ⟨h1.1.trans h2.1, h1.2.1.trans h2.2.1, h1.2.2.1.trans h2.2.2.1,
   h1.2.2.2.1.trans h2.2.2.2.1, h1.2.2.2.2.trans h2.2.2.2.2⟩

theorem session_after_same (env : Collaborators) (encoder : gpujpeg_encoder)
    (earlier : List (List Byte)) : same_session encoder (session_after env encoder earlier) := by
  induction earlier generalizing encoder with
  | nil => exact ⟨rfl, rfl, rfl, rfl, rfl⟩
  | cons img rest ih =>
    exact same_session_trans (encode_same_session env encoder img 0 0) (ih _)


theorem count_restart_markers_append (xs ys : List Byte)
    (h : ∀ a b, xs.getLast? = some a → ys.head? = some b → is_restart_marker a b = false) :
    count_restart_markers (xs ++ ys) = count_restart_markers xs + count_restart_markers ys := by
  induction xs with
  | nil => simp [count_restart_markers]
  | cons a t ih =>
    cases t with
    | nil =>
      cases ys with
      | nil => simp [count_restart_markers]
      | cons b u =>
        have := h a b rfl rfl
        simp [count_restart_markers, this]
    | cons a' t =>
      have ih' := ih (fun x y hx hy => h x y (by simpa [List.getLast?_cons_cons] using hx) hy)
      show (if is_restart_marker a a' = true then 1 else 0)
          + count_restart_markers ((a' :: t) ++ ys)
        = ((if is_restart_marker a a' = true then 1 else 0) + count_restart_markers (a' :: t))
          + count_restart_markers ys
      rw [ih']
      omega

theorem getLast?_eq_last_two (l : List Byte) (h : 1 ≤ l.length) :
    l.getLast? = some (last_two l).2 := by
  have h1 : l.length - 1 < l.length := by omega
  simp [last_two, List.getLast?_eq_getElem?, List.getD_eq_getElem?_getD,
    List.getElem?_eq_getElem h1]

theorem last_two_append (xs ys : List Byte) (h : 2 ≤ ys.length) :
    last_two (xs ++ ys) = last_two ys := by
  simp only [last_two, List.getD_eq_getElem?_getD, List.length_append]
  rw [List.getElem?_append_right (by omega), List.getElem?_append_right (by omega)]
  congr 3 <;> omega

theorem is_restart_marker_snd (a b : Nat) (h : is_restart_marker a b = true) (c : Nat) :
    is_restart_marker b c = false := by
  have hb : b ≠ 255 := by
    simp only [is_restart_marker, Bool.and_eq_true, beq_iff_eq, decide_eq_true_eq] at h
    omega
  simp [is_restart_marker, hb]

theorem strip_last_append_last_two (l : List Byte) (h : 2 ≤ l.length) :
    l = strip_last 2 l ++ [(last_two l).1, (last_two l).2] := by
  apply List.ext_getElem
  · simp [strip_last]; omega
  · intro i h1 h2
    simp only [strip_last, last_two, List.getD_eq_getElem?_getD]
    by_cases hi : i < l.length - 2
    · rw [List.getElem_append_left (by simp; omega)]
      simp
    · rw [List.getElem_append_right (by simp; omega)]
      simp only [List.length_take]
      have hlen : min (l.length - 2) l.length = l.length - 2 := by omega
      by_cases hi2 : i = l.length - 2
      · subst hi2
        simp [hlen, List.getElem?_eq_getElem (show l.length - 2 < l.length by omega)]
      · have hi3 : i = l.length - 1 := by omega
        subst hi3
        have : l.length - 1 - (l.length - 2) = 1 := by omega
        simp [hlen, this, List.getElem?_eq_getElem (show l.length - 1 < l.length by omega)]

/-- Dropping a trailing restart marker lowers the count of restart markers by one. -/
theorem count_strip_last (l : List Byte) (h : 2 ≤ l.length)
    (hm : is_restart_marker (last_two l).1 (last_two l).2 = true) :
    count_restart_markers (strip_last 2 l) + 1 = count_restart_markers l := by
  conv_rhs => rw [strip_last_append_last_two l h]
  rw [count_restart_markers_append]
  · simp [count_restart_markers, hm]
  · intro a b _ hb
    simp only [List.head?_cons, Option.some.injEq] at hb
    have h1 : (last_two l).1 = 255 := by
      simp only [is_restart_marker, Bool.and_eq_true, beq_iff_eq, decide_eq_true_eq] at hm
      exact hm.1
    rw [← hb, h1]
    simp [is_restart_marker]

theorem scan_bytes_succ (coder : gpujpeg_coder) (first n : Nat) :
    scan_bytes coder first (n + 1) = scan_bytes coder first n ++ segment_bytes coder (first + n) := by
  rw [scan_bytes_append]
  simp [scan_bytes, List.range'_succ]

/-- The concatenation of `n` segments that each end with their only restart marker holds `n`
restart markers, and for `n > 0` it ends with the restart marker of the last segment. -/
theorem scan_bytes_markers (coder : gpujpeg_coder) (first n : Nat)
    (hseg : ∀ i, first ≤ i → i < first + n → segment_ends_with_marker (segment_bytes coder i)) :
    count_restart_markers (scan_bytes coder first n) = n ∧
    (1 ≤ n → 2 ≤ (scan_bytes coder first n).length ∧
      last_two (scan_bytes coder first n) = last_two (segment_bytes coder (first + n - 1))) := by
  induction n with
  | zero => simp [scan_bytes, count_restart_markers]
  | succ n ih =>
    obtain ⟨c1, c2⟩ := ih (fun i h1 h2 => hseg i h1 (by omega))
    obtain ⟨s1, s2, s3⟩ := hseg (first + n) (by omega) (by omega)
    rw [scan_bytes_succ]
    refine ⟨?_, fun _ => ⟨by rw [List.length_append]; omega, ?_⟩⟩
    · rw [count_restart_markers_append, c1, s3]
      intro a b ha _
      cases n with
      | zero => simp [scan_bytes] at ha
      | succ m =>
        obtain ⟨d1, d2⟩ := c2 (by omega)
        obtain ⟨t1, t2, -⟩ := hseg (first + (m + 1) - 1) (by omega) (by omega)
        rw [getLast?_eq_last_two _ (by omega), d2] at ha
        simp only [Option.some.injEq] at ha
        subst ha
        exact is_restart_marker_snd _ _ t2 b
    · rw [last_two_append _ _ s1]
      congr 2
theorem retracted_bytes_scan_events (coder : gpujpeg_coder) (l : List Nat) :
    retracted_bytes ((l.map (component_scan_events coder)).flatten)
      = l.map (fun c => last_two (component_scan_bytes coder c)) := by
  induction l with
  | nil => rfl
  | cons c l ih =>
    rw [List.map_cons, List.flatten_cons, retracted_bytes_append, ih, List.map_cons]
    rw [component_scan_events, ← List.singleton_append, List.append_assoc,
      retracted_bytes_append, retracted_bytes_append, retracted_bytes_memcpy]
    rfl


theorem create_initialise_frame (env : LifecycleCollaborators) (s4 : create_state) :
    (create_initialise env s4).handles = s4.handles ∧
    (create_initialise env s4).live = s4.live ∧
    ((create_initialise env s4).result = true →
      s4.result = true ∧
      (∀ c, c < GPUJPEG_COMPONENT_TYPE_COUNT → env.table_quantization_encoder_init c = 0) ∧
      (∀ c h, c < GPUJPEG_COMPONENT_TYPE_COUNT → h < GPUJPEG_HUFFMAN_TYPE_COUNT →
        env.table_huffman_encoder_init c h = 0) ∧
      env.huffman_gpu_encoder_init = 0) := by
  have hr2 : List.range 2 = [0, 1] := by decide
  have hlt : ∀ c, c < 2 → c = 0 ∨ c = 1 := by omega
  simp only [create_initialise, GPUJPEG_COMPONENT_TYPE_COUNT, GPUJPEG_HUFFMAN_TYPE_COUNT, hr2,
    List.foldl_cons, List.foldl_nil]
  by_cases q0 : env.table_quantization_encoder_init 0 = 0 <;>
  by_cases q1 : env.table_quantization_encoder_init 1 = 0 <;>
  by_cases h00 : env.table_huffman_encoder_init 0 0 = 0 <;>
  by_cases h01 : env.table_huffman_encoder_init 0 1 = 0 <;>
  by_cases h10 : env.table_huffman_encoder_init 1 0 = 0 <;>
  by_cases h11 : env.table_huffman_encoder_init 1 1 = 0 <;>
  by_cases g : env.huffman_gpu_encoder_init = 0 <;>
  simp only [q0, q1, h00, h01, h10, h11, g, ne_eq, not_true_eq_false, not_false_eq_true,
    if_true, if_false, true_and, Bool.false_eq_true, false_implies, and_true, implies_true]
  intro hres
  refine ⟨hres, ?_, ?_⟩
  · intro c hc
    rcases hlt c hc with rfl | rfl <;> assumption
  · intro c h hc hh
    rcases hlt c hc with rfl | rfl <;> rcases hlt h hh with rfl | rfl <;> assumption


theorem foldl_same_allocation {α : Type} (l : List α) (f g : create_state → α → create_state)
    (h : ∀ a ∈ l, ∀ s t, same_allocation s t → same_allocation (f s a) (g t a)) :
    ∀ s t, same_allocation s t → same_allocation (l.foldl f s) (l.foldl g t) := by
  induction l with
  | nil => intro s t hst; exact hst
  | cons a l ih =>
    intro s t hst
    exact ih (fun b hb => h b (List.mem_cons_of_mem _ hb)) _ _
      (h a (List.mem_cons_self _ _) s t hst)

theorem quantization_step_same (env env2 : LifecycleCollaborators) (c : Nat)
    (h : env.cudaMalloc_quantization c = env2.cudaMalloc_quantization c) (s t : create_state)
    (hst : same_allocation s t) :
    same_allocation (create_alloc_quantization_step env s c)
      (create_alloc_quantization_step env2 t c) := by
  obtain ⟨h1, h2⟩ := hst
  unfold create_alloc_quantization_step
  rw [← h]
  cases env.cudaMalloc_quantization c
  · exact ⟨h1, h2⟩
  · exact ⟨by simp [h1], by simp [h2]⟩

theorem huffman_step_same (env env2 : LifecycleCollaborators) (c k : Nat)
    (h : env.cudaMalloc_huffman c k = env2.cudaMalloc_huffman c k) (s t : create_state)
    (hst : same_allocation s t) :
    same_allocation (create_alloc_huffman_step env c s k)
      (create_alloc_huffman_step env2 c t k) := by
  obtain ⟨h1, h2⟩ := hst
  unfold create_alloc_huffman_step
  rw [← h]
  cases env.cudaMalloc_huffman c k
  · exact ⟨h1, h2⟩
  · exact ⟨by simp [h1], by simp [h2]⟩

/-- The handles and the live resources after the allocations depend only on which allocations
succeed. -/
theorem create_allocate_same (env env2 : LifecycleCollaborators)
    (hw : env.writer_create = env2.writer_create)
    (hc : env.coder_init_allocates = env2.coder_init_allocates)
    (hq : ∀ c, c < GPUJPEG_COMPONENT_TYPE_COUNT →
      env.cudaMalloc_quantization c = env2.cudaMalloc_quantization c)
    (hh : ∀ c k, c < GPUJPEG_COMPONENT_TYPE_COUNT → k < GPUJPEG_HUFFMAN_TYPE_COUNT →
      env.cudaMalloc_huffman c k = env2.cudaMalloc_huffman c k) :
    same_allocation (create_allocate env) (create_allocate env2) := by
  unfold create_allocate
  apply foldl_same_allocation
  · intro c hc s t hst
    apply foldl_same_allocation
    · intro k hk s t hst
      exact huffman_step_same env env2 c k (hh c k (List.mem_range.1 hc) (List.mem_range.1 hk))
        s t hst
    · exact hst
  · apply foldl_same_allocation
    · intro c hc s t hst
      exact quantization_step_same env env2 c (hq c (List.mem_range.1 hc)) s t hst
    · unfold create_coder_init create_writer
      rw [← hw, ← hc]
      cases env.writer_create <;> exact ⟨rfl, rfl⟩

theorem destroy_of_flags : ∀ w cb q0 q1 h00 h01 h10 h11 : Bool,
    gpujpeg_encoder_destroy lifecycle_ok
      (create_allocate (lifecycle_of_flags w cb q0 q1 h00 h01 h10 h11)).handles
      (create_allocate (lifecycle_of_flags w cb q0 q1 h00 h01 h10 h11)).live = (0, []) := by
  decide

/-- When the teardown of the coder succeeds and releases the coder buffers, destroying what the
allocations of create left releases everything, whichever allocations failed. -/
theorem create_allocate_destroy (env : LifecycleCollaborators) (hd : env.coder_deinit = 0)
    (hr : env.coder_deinit_releases = true) :
    gpujpeg_encoder_destroy env (create_allocate env).handles (create_allocate env).live
      = (0, []) := by
  have h := destroy_of_flags env.writer_create env.coder_init_allocates
    (env.cudaMalloc_quantization 0) (env.cudaMalloc_quantization 1)
    (env.cudaMalloc_huffman 0 0) (env.cudaMalloc_huffman 0 1)
    (env.cudaMalloc_huffman 1 0) (env.cudaMalloc_huffman 1 1)
  have hlt : ∀ c, c < 2 → c = 0 ∨ c = 1 := by omega
  obtain ⟨e1, e2⟩ := create_allocate_same env
    (lifecycle_of_flags env.writer_create env.coder_init_allocates
      (env.cudaMalloc_quantization 0) (env.cudaMalloc_quantization 1)
      (env.cudaMalloc_huffman 0 0) (env.cudaMalloc_huffman 0 1)
      (env.cudaMalloc_huffman 1 0) (env.cudaMalloc_huffman 1 1)) rfl rfl
    (fun c hc => by rcases hlt c hc with rfl | rfl <;> rfl)
    (fun c k hc hk => by
      rcases hlt c hc with rfl | rfl <;> rcases hlt k hk with rfl | rfl <;> rfl)
  rw [← e1, ← e2] at h
  rw [← h]
  simp only [gpujpeg_encoder_destroy, hd, hr, lifecycle_ok]

/-- Apart from the early return of `gpujpeg_encoder_destroy`, creation keeps its contract: when
the teardown of the coder succeeds, `gpujpeg_encoder_create` either returns NULL with nothing
allocated, or returns a session for which every allocation and every initialisation
succeeded. -/
theorem create_sound_when_deinit_ok (env : LifecycleCollaborators) (hd : env.coder_deinit = 0)
    (hr : env.coder_deinit_releases = true) :
    ((gpujpeg_encoder_create env).1.isNone = true ∧ (gpujpeg_encoder_create env).2 = []) ∨
    ((gpujpeg_encoder_create env).1.isSome = true ∧
      (create_allocate env).result = true ∧
      (∀ c, c < GPUJPEG_COMPONENT_TYPE_COUNT → env.table_quantization_encoder_init c = 0) ∧
      (∀ c h, c < GPUJPEG_COMPONENT_TYPE_COUNT → h < GPUJPEG_HUFFMAN_TYPE_COUNT →
        env.table_huffman_encoder_init c h = 0) ∧
      env.huffman_gpu_encoder_init = 0) := by
  obtain ⟨f1, f2, f3⟩ := create_initialise_frame env (create_allocate env)
  unfold gpujpeg_encoder_create
  by_cases hm : env.malloc_encoder = false
  · left
    simp [hm]
  · by_cases hres : (create_initialise env (create_allocate env)).result = false
    · left
      simp only [hm, hres, if_true, if_false, f1, f2, create_allocate_destroy env hd hr]
      exact ⟨rfl, rfl⟩
    · right
      have hres' : (create_initialise env (create_allocate env)).result = true := by
        simpa using hres
      simp only [hm, hres, if_false]
      exact ⟨rfl, f3 hres'⟩

/-- When the teardown of the coder reports an error, `gpujpeg_encoder_destroy` returns -1 and
releases nothing itself: what is live afterwards is what the teardown of the coder left. -/
theorem destroy_returns_early (env : LifecycleCollaborators) (encoder : gpujpeg_encoder_handles)
    (live : List Resource) (hd : env.coder_deinit ≠ 0) :
    gpujpeg_encoder_destroy env encoder live
      = (-1, if env.coder_deinit_releases then live.erase Resource.coder_buffers else live) := by
  simp only [gpujpeg_encoder_destroy, hd, ne_eq, not_false_eq_true, if_true]

theorem to_int_of_fits (x : Int) (h1 : -2147483648 ≤ x) (h2 : x < 2147483648) : to_int x = x := by
  unfold to_int
  omega

/-- The distance from the buffer start to the cursor after a successful call on the branch
`restart_interval > 0`, and the length stored for the caller. -/
theorem encode_parallel_length (env : Collaborators) (encoder : gpujpeg_encoder)
    (image : List Byte) (ic ics : Int) (hri : 0 < encoder.coder.param.restart_interval)
    (hok : parallel_stages_succeed env encoder image) :
    (gpujpeg_encoder_encode env encoder image ic ics).status = 0 ∧
    (gpujpeg_encoder_encode env encoder image ic ics).encoder.writer.buffer_current
        - (gpujpeg_encoder_encode env encoder image ic ics).encoder.writer.buffer
      = expected_length env encoder image ∧
    (gpujpeg_encoder_encode env encoder image ic ics).image_compressed_size
      = to_int (expected_length env encoder image) := by
  rw [encode_parallel_ok env encoder image ic ics hri hok]
  obtain ⟨e1, -, e3, -, e5, -⟩ := encode_finish_eq env (coder_after_gpu env encoder.coder image)
    (write_scans env image (coder_after_gpu env encoder.coder image)
      ⟨({ encoder.writer with buffer_current := encoder.writer.buffer } :
          gpujpeg_writer).emit (env.write_header image),
       parallel_head_trace encoder.coder.param_image.comp_count⟩)
  rw [e1, e3, e5, emit_buffer, emit_buffer_current]
  have key : (write_scans env image (coder_after_gpu env encoder.coder image)
      ⟨({ encoder.writer with buffer_current := encoder.writer.buffer } :
          gpujpeg_writer).emit (env.write_header image),
       parallel_head_trace encoder.coder.param_image.comp_count⟩).writer.buffer_current
      + (env.marker_EOI.length : Int)
      - (write_scans env image (coder_after_gpu env encoder.coder image)
      ⟨({ encoder.writer with buffer_current := encoder.writer.buffer } :
          gpujpeg_writer).emit (env.write_header image),
       parallel_head_trace encoder.coder.param_image.comp_count⟩).writer.buffer
      = expected_length env encoder image := by
    unfold expected_length
    by_cases hil : encoder.coder.param.interleaved = 1
    · obtain ⟨h2, h3, -, -⟩ := write_scans_interleaved env image
        (coder_after_gpu env encoder.coder image)
        ⟨({ encoder.writer with buffer_current := encoder.writer.buffer } :
            gpujpeg_writer).emit (env.write_header image),
         parallel_head_trace encoder.coder.param_image.comp_count⟩ hil
      rw [h2, h3, if_pos hil]
      simp only [emit_buffer, emit_buffer_current, coder_after_gpu]
      ring
    · obtain ⟨h2, h3, -, -⟩ := write_scans_separate env image
        (coder_after_gpu env encoder.coder image)
        ⟨({ encoder.writer with buffer_current := encoder.writer.buffer } :
            gpujpeg_writer).emit (env.write_header image),
         parallel_head_trace encoder.coder.param_image.comp_count⟩ hil
      rw [h2, h3, if_neg hil]
      simp only [emit_buffer, emit_buffer_current, coder_after_gpu, first_segment]
      ring
  exact ⟨rfl, key, by rw [key]⟩


/-- The restart markers of the scans of a successful call on the branch `restart_interval > 0`
when every scan has a segment and every segment ends with its only restart marker. -/
theorem restart_markers_of_scans (env : Collaborators) (encoder : gpujpeg_encoder) (image : List Byte)
    (ic ics : Int) (hri : 0 < encoder.coder.param.restart_interval)
    (hok : parallel_stages_succeed env encoder image)
    (hne : scans_have_segments encoder.coder)
    (hseg : segments_end_with_marker (coder_after_gpu env encoder.coder image)) :
    (gpujpeg_encoder_encode env encoder image ic ics).status = 0 ∧
    (gpujpeg_encoder_encode env encoder image ic ics).output
      = env.write_header image
        ++ ((scan_layout encoder.coder).map (fun s =>
            env.write_scan_header image s.1
              ++ strip_last 2
                  (scan_bytes (coder_after_gpu env encoder.coder image) s.2.1 s.2.2))).flatten
        ++ env.marker_EOI ∧
    (∀ s ∈ scan_layout encoder.coder,
      count_restart_markers
          (strip_last 2 (scan_bytes (coder_after_gpu env encoder.coder image) s.2.1 s.2.2))
        = s.2.2 - 1) ∧
    retracted_bytes (gpujpeg_encoder_encode env encoder image ic ics).trace
      = (scan_layout encoder.coder).map (fun s =>
          last_two (segment_bytes (coder_after_gpu env encoder.coder image)
            (s.2.1 + s.2.2 - 1))) ∧
    (∀ p ∈ retracted_bytes (gpujpeg_encoder_encode env encoder image ic ics).trace,
      is_restart_marker p.1 p.2 = true) := by
  -- facts about each scan
  have hscan : ∀ s ∈ scan_layout encoder.coder,
      2 ≤ (scan_bytes (coder_after_gpu env encoder.coder image) s.2.1 s.2.2).length ∧
      last_two (scan_bytes (coder_after_gpu env encoder.coder image) s.2.1 s.2.2)
        = last_two (segment_bytes (coder_after_gpu env encoder.coder image)
            (s.2.1 + s.2.2 - 1)) ∧
      is_restart_marker
        (last_two (segment_bytes (coder_after_gpu env encoder.coder image)
            (s.2.1 + s.2.2 - 1))).1
        (last_two (segment_bytes (coder_after_gpu env encoder.coder image)
            (s.2.1 + s.2.2 - 1))).2 = true ∧
      count_restart_markers
          (strip_last 2 (scan_bytes (coder_after_gpu env encoder.coder image) s.2.1 s.2.2))
        = s.2.2 - 1 := by
    intro s hs
    have h1 := hne s hs
    obtain ⟨c1, c2⟩ := scan_bytes_markers (coder_after_gpu env encoder.coder image) s.2.1 s.2.2
      (fun i hi1 hi2 => by
        have := hseg s hs (i - s.2.1) (by omega)
        rwa [show s.2.1 + (i - s.2.1) = i by omega] at this)
    obtain ⟨d1, d2⟩ := c2 h1
    have hm := (hseg s hs (s.2.2 - 1) (by omega)).2.1
    rw [show s.2.1 + (s.2.2 - 1) = s.2.1 + s.2.2 - 1 by omega] at hm
    refine ⟨d1, d2, hm, ?_⟩
    have := count_strip_last _ d1 (by rw [d2]; exact hm)
    omega
  have hret : (∀ p ∈ (scan_layout encoder.coder).map (fun s =>
          last_two (segment_bytes (coder_after_gpu env encoder.coder image)
            (s.2.1 + s.2.2 - 1))), is_restart_marker p.1 p.2 = true) := by
    intro p hp
    obtain ⟨s, hs, rfl⟩ := List.mem_map.1 hp
    exact (hscan s hs).2.2.1
  have hE : retracted_bytes [Event.emit_marker_EOI] = [] := rfl
  by_cases hil : encoder.coder.param.interleaved = 1
  · have hl : scan_layout encoder.coder = [(0, 0, encoder.coder.segment_count)] := by
      simp [scan_layout, hil]
    rw [hl] at hscan hret ⊢
    obtain ⟨k1, k2, k3, k4⟩ := hscan _ (List.mem_singleton.2 rfl)
    obtain ⟨h1, h2, h3⟩ := encode_interleaved_result env encoder image ic ics hri hok hil k1
    have hr : retracted_bytes (gpujpeg_encoder_encode env encoder image ic ics).trace
        = [last_two (segment_bytes (coder_after_gpu env encoder.coder image)
            (0 + encoder.coder.segment_count - 1))] := by
      rw [h3, retracted_bytes_append, retracted_bytes_append, retracted_bytes_head, hE,
        ← List.singleton_append, List.append_assoc, retracted_bytes_append,
        retracted_bytes_append, retracted_bytes_memcpy, ← k2]
      rfl
    refine ⟨h1, ?_, ?_, ?_, ?_⟩
    · rw [h2]; simp
    · intro s hs
      rw [List.mem_singleton.1 hs]
      exact k4
    · rw [hr]; rfl
    · rw [hr]; exact hret
  · have hl : scan_layout encoder.coder
        = (List.range encoder.coder.param_image.comp_count).map
            (fun c => (c, first_segment encoder.coder c,
              (encoder.coder.component c).segment_count)) := by
      simp [scan_layout, hil]
    have hD : ∀ c, c < encoder.coder.param_image.comp_count →
        2 ≤ (component_scan_bytes (coder_after_gpu env encoder.coder image) c).length := by
      intro c hc
      exact (hscan (c, first_segment encoder.coder c, (encoder.coder.component c).segment_count)
        (by rw [hl]; exact List.mem_map.2 ⟨c, List.mem_range.2 hc, rfl⟩)).1
    obtain ⟨h1, h2, h3⟩ := encode_separate_result env encoder image ic ics hri hok hil hD
    have hr : retracted_bytes (gpujpeg_encoder_encode env encoder image ic ics).trace
        = (scan_layout encoder.coder).map (fun s =>
          last_two (segment_bytes (coder_after_gpu env encoder.coder image)
            (s.2.1 + s.2.2 - 1))) := by
      rw [h3, retracted_bytes_append, retracted_bytes_append, retracted_bytes_head, hE,
        retracted_bytes_scan_events, hl, List.map_map, List.nil_append, List.append_nil]
      apply List.map_congr_left
      intro c hc
      exact (hscan (c, first_segment encoder.coder c, (encoder.coder.component c).segment_count)
        (by rw [hl]; exact List.mem_map.2 ⟨c, hc, rfl⟩)).2.1
    refine ⟨h1, ?_, fun s hs => (hscan s hs).2.2.2, hr, ?_⟩
    · rw [h2, hl, List.map_map]
      rfl
    · rw [hr]; exact hret

/-- C1 (amended): when `restart_interval > 0` and every stage succeeds, encode returns 0, writes
one scan header and appends all segments of the segment array when `interleaved == 1`, and
otherwise writes the scan headers of the components in order and appends the segments below
the sum of their `segment_count`s; the writer cursor minus the buffer start equals the header
length plus the lengths of these scan headers plus `data_compressed_size` of these segments
minus 2 per scan plus the length of the end-of-image marker; the returned length is that
number stored in an `int`, and equals it whenever it is below 2^31. -/
theorem C1_output_length (env : Collaborators) (encoder : gpujpeg_encoder) (image : List Byte)
    (ic ics : Int) (hri : 0 < encoder.coder.param.restart_interval)
    (hok : parallel_stages_succeed env encoder image) :
    (gpujpeg_encoder_encode env encoder image ic ics).status = 0 ∧
    scan_headers_written (gpujpeg_encoder_encode env encoder image ic ics).trace
      = (if encoder.coder.param.interleaved = 1 then [0]
         else List.range encoder.coder.param_image.comp_count) ∧
    segments_appended (gpujpeg_encoder_encode env encoder image ic ics).trace
      = (if encoder.coder.param.interleaved = 1 then List.range encoder.coder.segment_count
         else List.range (first_segment encoder.coder encoder.coder.param_image.comp_count)) ∧
    (gpujpeg_encoder_encode env encoder image ic ics).encoder.writer.buffer_current
        - (gpujpeg_encoder_encode env encoder image ic ics).encoder.writer.buffer
      = expected_length env encoder image ∧
    (gpujpeg_encoder_encode env encoder image ic ics).image_compressed_size
      = to_int (expected_length env encoder image) ∧
    (-2147483648 ≤ expected_length env encoder image →
      expected_length env encoder image < 2147483648 →
      (gpujpeg_encoder_encode env encoder image ic ics).image_compressed_size
        = expected_length env encoder image) := by
  obtain ⟨h1, h2, h3⟩ := encode_parallel_length env encoder image ic ics hri hok
  obtain ⟨l1, l2⟩ := encode_parallel_log env encoder image ic ics hri hok
  exact ⟨h1, l1, l2, h2, h3, fun b1 b2 => by rw [h3, to_int_of_fits _ b1 b2]⟩

/-- Witness of C1 (amended): the sample session in non-interleaved mode, three scans of one
segment each: 2 + 3 * 5 + (4 + 3 + 3) - 2 * 3 + 2 = 23 bytes. -/
theorem C1_output_length_witness :
    expected_length sample_env (sample_encoder 8 0 [1, 1, 1]) [] = 23 ∧
    (gpujpeg_encoder_encode sample_env (sample_encoder 8 0 [1, 1, 1]) [] 0 0).image_compressed_size
      = 23 ∧
    segments_appended
        (gpujpeg_encoder_encode sample_env (sample_encoder 8 0 [1, 1, 1]) [] 0 0).trace
      = [0, 1, 2] ∧
    (gpujpeg_encoder_encode sample_env (sample_encoder 8 0 [1, 1, 1]) [] 0 0).output.length
      = 23 := by
  have h := C1_output_length sample_env (sample_encoder 8 0 [1, 1, 1]) [] 0 0 (by decide)
    ⟨rfl, rfl, fun _ _ => rfl, rfl, rfl, rfl⟩
  have he : expected_length sample_env (sample_encoder 8 0 [1, 1, 1]) [] = 23 := by decide
  refine ⟨he, ?_, ?_, by decide⟩
  · rw [h.2.2.2.2.2 (by rw [he]; decide) (by rw [he]; decide), he]
  · rw [h.2.2.1]
    decide

/-- Counterexample to C1 as stated: a session in interleaved mode whose two segments hold
2^30 - 4 bytes each.  Every stage succeeds and encode returns 0; the header of 20 bytes, the
scan header of 5, the segments less 2 bytes and the end-of-image marker make 2147483665 bytes,
which is what the writer cursor is ahead of the buffer start, but the length returned in the
caller's `int` is -2147483631. -/
theorem C1_counterexample :
    large_encoder.coder.param.restart_interval = 8388608 ∧
    parallel_stages_succeed large_env large_encoder [] ∧
    (gpujpeg_encoder_encode large_env large_encoder [] 0 0).status = 0 ∧
    expected_length large_env large_encoder [] = 2147483665 ∧
    (gpujpeg_encoder_encode large_env large_encoder [] 0 0).encoder.writer.buffer_current
        - (gpujpeg_encoder_encode large_env large_encoder [] 0 0).encoder.writer.buffer
      = 2147483665 ∧
    (gpujpeg_encoder_encode large_env large_encoder [] 0 0).image_compressed_size
      = -2147483631 ∧
    (gpujpeg_encoder_encode large_env large_encoder [] 0 0).image_compressed_size
      ≠ expected_length large_env large_encoder [] := by
  have hok : parallel_stages_succeed large_env large_encoder [] :=
    ⟨rfl, rfl, fun _ _ => rfl, rfl, rfl, rfl⟩
  obtain ⟨h1, h2, h3⟩ := encode_parallel_length large_env large_encoder [] 0 0 (by decide) hok
  have he : expected_length large_env large_encoder [] = 2147483665 := by decide
  refine ⟨rfl, hok, h1, he, by rw [h2, he], ?_, ?_⟩
  · rw [h3, he]; decide
  · rw [h3, he]; decide

/-- C2: on a session with `restart_interval > 0` and `interleaved == 0` whose scans end with
their trailing restart marker, as the specification has them, a call in which every stage
succeeds returns 0 and writes exactly `comp_count` scan headers, one per component in index
order; every segment below the sum of the `segment_count`s is appended exactly once; and the
output is the header, then for each component in order its scan header followed by the bytes of
its own segments (those at the indices from the sum of `segment_count` of the earlier
components on, `segment_count` of them, in array order) less their last 2 bytes, then the
end-of-image marker.  The log shows each scan copying only the segments of its component. -/
theorem C2_separate_scans (env : Collaborators) (encoder : gpujpeg_encoder) (image : List Byte)
    (ic ics : Int) (hri : 0 < encoder.coder.param.restart_interval)
    (hok : parallel_stages_succeed env encoder image)
    (hil : encoder.coder.param.interleaved = 0)
    (hwf : scans_hold_trailing_marker (coder_after_gpu env encoder.coder image)) :
    (gpujpeg_encoder_encode env encoder image ic ics).status = 0 ∧
    scan_headers_written (gpujpeg_encoder_encode env encoder image ic ics).trace
      = List.range encoder.coder.param_image.comp_count ∧
    segments_appended (gpujpeg_encoder_encode env encoder image ic ics).trace
      = List.range (first_segment encoder.coder encoder.coder.param_image.comp_count) ∧
    (segments_appended (gpujpeg_encoder_encode env encoder image ic ics).trace).Nodup ∧
    (gpujpeg_encoder_encode env encoder image ic ics).output
      = env.write_header image
        ++ ((List.range encoder.coder.param_image.comp_count).map (fun c =>
            env.write_scan_header image c
              ++ strip_last 2 (component_scan_bytes (coder_after_gpu env encoder.coder image) c))).flatten
        ++ env.marker_EOI ∧
    (gpujpeg_encoder_encode env encoder image ic ics).trace
      = parallel_head_trace encoder.coder.param_image.comp_count
        ++ ((List.range encoder.coder.param_image.comp_count).map
            (component_scan_events (coder_after_gpu env encoder.coder image))).flatten
        ++ [Event.emit_marker_EOI] := by
  have hil' : ¬ encoder.coder.param.interleaved = 1 := by omega
  have hD : ∀ c, c < encoder.coder.param_image.comp_count →
      2 ≤ (component_scan_bytes (coder_after_gpu env encoder.coder image) c).length := by
    intro c hc
    have hmem : (c, first_segment (coder_after_gpu env encoder.coder image) c,
        ((coder_after_gpu env encoder.coder image).component c).segment_count)
        ∈ scan_layout (coder_after_gpu env encoder.coder image) := by
      have hil2 : ¬ (coder_after_gpu env encoder.coder image).param.interleaved = 1 := hil'
      simp only [scan_layout, hil2, if_false]
      exact List.mem_map.2 ⟨c, List.mem_range.2 hc, rfl⟩
    exact hwf _ hmem
  obtain ⟨h1, h2, h3⟩ := encode_separate_result env encoder image ic ics hri hok hil' hD
  obtain ⟨l1, l2⟩ := encode_parallel_log env encoder image ic ics hri hok
  rw [if_neg hil'] at l1 l2
  exact ⟨h1, l1, l2, by rw [l2]; exact List.nodup_range _, h2, h3⟩

/-- Witness of C2: the sample session with one segment per component. -/
theorem C2_separate_scans_witness :
    (gpujpeg_encoder_encode sample_env (sample_encoder 8 0 [1, 1, 1]) [] 0 0).output
      = [255, 216, 255, 218, 0, 63, 0, 10, 11, 255, 218, 1, 63, 0, 12, 255, 218, 2, 63, 0, 13,
         255, 217] := by
  have h := (C2_separate_scans sample_env (sample_encoder 8 0 [1, 1, 1]) [] 0 0 (by decide)
    ⟨rfl, rfl, fun _ _ => rfl, rfl, rfl, rfl⟩ rfl (by decide)).2.2.2.2.1
  rw [h]
  decide

/-- C3: on a session with `restart_interval > 0` and `interleaved == 1` whose scan ends with
its trailing restart marker, as the specification has it, a call in which every stage succeeds
returns 0, writes exactly one scan header, appends every segment of the segment array once in
array order, and its output is the header, the scan header, the concatenation of
`data_compressed[index .. index + size)` over the segments `0 .. segment_count - 1` less its
final 2 bytes, and the end-of-image marker. -/
theorem C3_interleaved_scan (env : Collaborators) (encoder : gpujpeg_encoder) (image : List Byte)
    (ic ics : Int) (hri : 0 < encoder.coder.param.restart_interval)
    (hok : parallel_stages_succeed env encoder image)
    (hil : encoder.coder.param.interleaved = 1)
    (hwf : scans_hold_trailing_marker (coder_after_gpu env encoder.coder image)) :
    (gpujpeg_encoder_encode env encoder image ic ics).status = 0 ∧
    scan_headers_written (gpujpeg_encoder_encode env encoder image ic ics).trace = [0] ∧
    segments_appended (gpujpeg_encoder_encode env encoder image ic ics).trace
      = List.range encoder.coder.segment_count ∧
    (gpujpeg_encoder_encode env encoder image ic ics).output
      = env.write_header image
        ++ (env.write_scan_header image 0
          ++ strip_last 2 (scan_bytes (coder_after_gpu env encoder.coder image) 0
              encoder.coder.segment_count))
        ++ env.marker_EOI := by
  have hD : 2 ≤ (scan_bytes (coder_after_gpu env encoder.coder image) 0
      encoder.coder.segment_count).length := by
    have hmem : (0, 0, encoder.coder.segment_count)
        ∈ scan_layout (coder_after_gpu env encoder.coder image) := by
      have hil2 : (coder_after_gpu env encoder.coder image).param.interleaved = 1 := hil
      simp only [scan_layout, hil2, if_true]
      exact List.mem_singleton.2 rfl
    exact hwf _ hmem
  obtain ⟨h1, h2, -⟩ := encode_interleaved_result env encoder image ic ics hri hok hil hD
  obtain ⟨l1, l2⟩ := encode_parallel_log env encoder image ic ics hri hok
  rw [if_pos hil] at l1 l2
  exact ⟨h1, l1, l2, h2⟩

/-- Witness of C3: the sample session with three segments in one scan. -/
theorem C3_interleaved_scan_witness :
    (gpujpeg_encoder_encode sample_env (sample_encoder 8 1 [1, 1, 1]) [] 0 0).output
      = [255, 216, 255, 218, 0, 63, 0, 10, 11, 255, 208, 12, 255, 209, 13, 255, 217] := by
  have h := (C3_interleaved_scan sample_env (sample_encoder 8 1 [1, 1, 1]) [] 0 0 (by decide)
    ⟨rfl, rfl, fun _ _ => rfl, rfl, rfl, rfl⟩ rfl (by decide)).2.2.2
  rw [h]
  decide

/-- C6, evaluated at the failing input: with `restart_interval == 0`, the device-to-host
transfer of the quantized coefficients fails, so a stage of the call fails, and every other
stage succeeds; `gpujpeg_encoder_encode` returns 0, not -1, because line 198 does not test the
status of that `cudaMemcpy`. -/
theorem C6_unchecked_quantized_transfer :
    (sample_encoder 0 0 []).coder.param.restart_interval = 0 ∧
    sample_env_quantized_transfer_fails.cudaMemcpy_quantized [] = 11 ∧
    some_stage_fails sample_env_quantized_transfer_fails (sample_encoder 0 0 []) [] ∧
    (gpujpeg_encoder_encode sample_env_quantized_transfer_fails (sample_encoder 0 0 []) []
      0 0).status = 0 ∧
    (gpujpeg_encoder_encode sample_env_quantized_transfer_fails (sample_encoder 0 0 []) []
      0 0).output = [255, 216, 1, 2, 3, 255, 217] :=
  ⟨rfl, rfl, Or.inr (Or.inr (Or.inr (Or.inl ⟨rfl, Or.inl (by decide)⟩))), rfl, by decide⟩

/-- C10: a call that returns -1 leaves the caller's `*image_compressed` and
`*image_compressed_size` as they were; and when the failing stage is the upload, the
preprocessor or the transform of component `k`, the session (writer cursor and buffer included)
is as before the call and the log ends with the failing stage: nothing later was invoked. -/
theorem C10_failure_frame (env : Collaborators) (encoder : gpujpeg_encoder) (image : List Byte)
    (ic ics : Int) (hfail : (gpujpeg_encoder_encode env encoder image ic ics).status = -1) :
    (gpujpeg_encoder_encode env encoder image ic ics).image_compressed = ic ∧
    (gpujpeg_encoder_encode env encoder image ic ics).image_compressed_size = ics ∧
    (env.cudaMemcpy_raw image ≠ 0 →
      (gpujpeg_encoder_encode env encoder image ic ics).encoder = encoder ∧
      (gpujpeg_encoder_encode env encoder image ic ics).trace = [Event.cudaMemcpy_raw]) ∧
    (env.cudaMemcpy_raw image = 0 → env.preprocessor_encode image ≠ 0 →
      (gpujpeg_encoder_encode env encoder image ic ics).encoder = encoder ∧
      (gpujpeg_encoder_encode env encoder image ic ics).trace
        = [Event.cudaMemcpy_raw, Event.preprocessor_encode]) ∧
    (env.cudaMemcpy_raw image = 0 → env.preprocessor_encode image = 0 →
      ∀ k, k < encoder.coder.param_image.comp_count →
        (∀ j, j < k → env.nppiDCTQuantFwd8x8LS image j = 0) →
        env.nppiDCTQuantFwd8x8LS image k ≠ 0 →
      (gpujpeg_encoder_encode env encoder image ic ics).encoder = encoder ∧
      (gpujpeg_encoder_encode env encoder image ic ics).trace
        = [Event.cudaMemcpy_raw, Event.preprocessor_encode]
          ++ (List.range (k + 1)).map Event.dct_quant) := by
  obtain ⟨o1, o2⟩ := encode_failure_out env encoder image ic ics hfail
  refine ⟨o1, o2, ?_, ?_, ?_⟩
  · intro h1
    simp [gpujpeg_encoder_encode, h1]
  · intro h1 h2
    simp [gpujpeg_encoder_encode, h1, h2]
  · intro h1 h2 k hk hz hf
    have hd := dct_loop_fail_trace (env.nppiDCTQuantFwd8x8LS image)
      encoder.coder.param_image.comp_count 0 [Event.cudaMemcpy_raw, Event.preprocessor_encode]
      k hk (by simpa using hz) (by simpa using hf)
    simp [gpujpeg_encoder_encode, h1, h2, hd, List.range_eq_range']

/-- Witness of C10: the transform of component 1 fails. -/
theorem C10_failure_frame_witness :
    (gpujpeg_encoder_encode sample_env_transform_fails (sample_encoder 8 0 [1, 1, 1]) []
      5 6).image_compressed = 5 ∧
    (gpujpeg_encoder_encode sample_env_transform_fails (sample_encoder 8 0 [1, 1, 1]) []
      5 6).image_compressed_size = 6 ∧
    (gpujpeg_encoder_encode sample_env_transform_fails (sample_encoder 8 0 [1, 1, 1]) []
      5 6).encoder = sample_encoder 8 0 [1, 1, 1] ∧
    (gpujpeg_encoder_encode sample_env_transform_fails (sample_encoder 8 0 [1, 1, 1]) []
      5 6).trace = [Event.cudaMemcpy_raw, Event.preprocessor_encode]
          ++ (List.range (1 + 1)).map Event.dct_quant :=
  ⟨(C10_failure_frame sample_env_transform_fails (sample_encoder 8 0 [1, 1, 1]) [] 5 6
      (by decide)).1,
   (C10_failure_frame sample_env_transform_fails (sample_encoder 8 0 [1, 1, 1]) [] 5 6
      (by decide)).2.1,
   (C10_failure_frame sample_env_transform_fails (sample_encoder 8 0 [1, 1, 1]) [] 5 6
      (by decide)).2.2.2.2 rfl rfl 1 (by decide) (by decide) (by decide)⟩


/-- C7: on a session with `restart_interval == 0` no call invokes the parallel coder, writes a
scan header, copies a segment or moves the cursor back; and when every stage succeeds the call
returns 0, its log is the upload, the preprocessor, the transforms, the header, the transfer of
the quantized coefficients, the sequential coder and the end-of-image marker, and the output is
the header bytes, then the bytes the sequential coder emitted, then the end-of-image marker.
On a session with `restart_interval > 0` no call invokes the sequential coder. -/
theorem C7_sequential_branch (env : Collaborators) (encoder : gpujpeg_encoder)
    (image : List Byte) (ic ics : Int) :
    (encoder.coder.param.restart_interval = 0 →
      Event.huffman_gpu_encoder_encode ∉ (gpujpeg_encoder_encode env encoder image ic ics).trace ∧
      scan_headers_written (gpujpeg_encoder_encode env encoder image ic ics).trace = [] ∧
      segments_appended (gpujpeg_encoder_encode env encoder image ic ics).trace = [] ∧
      retracted_bytes (gpujpeg_encoder_encode env encoder image ic ics).trace = [] ∧
      (sequential_stages_succeed env encoder image →
        (gpujpeg_encoder_encode env encoder image ic ics).status = 0 ∧
        (gpujpeg_encoder_encode env encoder image ic ics).trace
          = sequential_trace encoder.coder.param_image.comp_count ∧
        (gpujpeg_encoder_encode env encoder image ic ics).output
          = env.write_header image ++ (env.huffman_cpu_encoder_encode image).2
            ++ env.marker_EOI)) ∧
    (0 < encoder.coder.param.restart_interval →
      Event.huffman_cpu_encoder_encode
        ∉ (gpujpeg_encoder_encode env encoder image ic ics).trace) := by
  constructor
  · intro hri
    have ha := encode_trace_sequential env encoder image ic ics hri
    refine ⟨not_mem_of_all _ _ rfl _ ha, ?_, ?_, ?_, ?_⟩
    · exact filterMap_nil_of_all Event.on_sequential_path _
        (fun e he => by cases e <;> first | rfl | exact absurd he Bool.false_ne_true) _ ha
    · exact filterMap_nil_of_all Event.on_sequential_path _
        (fun e he => by cases e <;> first | rfl | exact absurd he Bool.false_ne_true) _ ha
    · exact filterMap_nil_of_all Event.on_sequential_path _
        (fun e he => by cases e <;> first | rfl | exact absurd he Bool.false_ne_true) _ ha
    · intro hok
      rw [encode_sequential_ok env encoder image ic ics hri hok, encode_finish_output]
      obtain ⟨b0, v0⟩ := header_view encoder.writer (env.write_header image)
      refine ⟨rfl, ?_, ?_⟩
      · rw [(encode_finish_eq _ _ _).2.2.2.2.2]
        simp [sequential_trace]
      · rw [view_emit _ _ (by
          simp only [emit_buffer, emit_buffer_current] at b0 ⊢; omega),
          view_emit _ _ b0, v0]
  · intro hri
    exact not_mem_of_all _ _ rfl _ (encode_trace_parallel env encoder image ic ics hri)

/-- Witness of C7: the sample session with `restart_interval == 0`, and with 8. -/
theorem C7_sequential_branch_witness :
    (gpujpeg_encoder_encode sample_env (sample_encoder 0 0 []) [] 0 0).output
      = [255, 216] ++ [1, 2, 3] ++ [255, 217] ∧
    Event.huffman_gpu_encoder_encode
      ∉ (gpujpeg_encoder_encode sample_env (sample_encoder 0 0 []) [] 0 0).trace ∧
    Event.huffman_cpu_encoder_encode
      ∉ (gpujpeg_encoder_encode sample_env (sample_encoder 8 0 [1, 1, 1]) [] 0 0).trace :=
  ⟨((C7_sequential_branch sample_env (sample_encoder 0 0 []) [] 0 0).1 rfl).2.2.2.2
      ⟨rfl, rfl, fun _ _ => rfl, rfl⟩ |>.2.2,
   ((C7_sequential_branch sample_env (sample_encoder 0 0 []) [] 0 0).1 rfl).1,
   (C7_sequential_branch sample_env (sample_encoder 8 0 [1, 1, 1]) [] 0 0).2 (by decide)⟩

/-- C9: with the collaborators given as functions of the session and the raw image, a call of
`gpujpeg_encoder_encode` on a raw image returns the same status and, when it succeeds, the same
length and the same output bytes, whether it runs on the session as it is or on the session as
any sequence of earlier calls (successful or failed) has left it, and whatever the caller's
out-variables held. -/
theorem C9_deterministic (env : Collaborators) (encoder : gpujpeg_encoder)
    (earlier : List (List Byte)) (image : List Byte) (ic ics ic' ics' : Int) :
    (gpujpeg_encoder_encode env (session_after env encoder earlier) image ic' ics').returned
      = (gpujpeg_encoder_encode env encoder image ic ics).returned :=
  (encode_returned_congr env encoder (session_after env encoder earlier) image ic ics ic' ics'
    (session_after_same env encoder earlier)).symm

/-- C4, evaluated at the failing input: teardown of the coder reports an error on a session that
holds every resource; `gpujpeg_encoder_destroy` returns -1 at line 283 and releases nothing:
both quantization tables, the four Huffman tables, the writer and the session object stay
allocated.  On the same session with a successful teardown of the coder it returns 0 and
releases everything. -/
theorem C4_destroy_early_return :
    lifecycle_deinit_fails.coder_deinit ≠ 0 ∧
    gpujpeg_encoder_destroy lifecycle_deinit_fails all_handles all_resources
      = (-1, all_resources) ∧
    gpujpeg_encoder_destroy lifecycle_ok all_handles all_resources = (0, []) := by
  decide

/-- C5, evaluated at the failing input: every allocation succeeds, the initialisation of the
parallel Huffman coder fails, so create goes through `gpujpeg_encoder_destroy`, and the teardown
of the coder reports an error there; create returns NULL while the session object, the writer,
the coder buffers, both quantization tables and the four Huffman tables stay allocated. -/
theorem C5_create_leaks :
    (gpujpeg_encoder_create lifecycle_init_and_deinit_fail).1.isNone = true ∧
    (gpujpeg_encoder_create lifecycle_init_and_deinit_fail).2 = all_resources := by
  decide

end GpuJpeg
